import Mathlib

/-!
Verification development for the validation-gate-runner component:
`scripts/compile_checks.py` (contract compiler) and
`scripts/run_until_green.py` (bounded validation loop).

The Python scripts are shallowly embedded: JSON values become the
inductive `J`, dictionaries become association lists with Python
`dict` update semantics, machine floats produced by `round(x, n)`
become exact rationals rounded half-to-even (the values the claims
exercise are decimal-exact, where float rounding agrees), and the
subprocess boundary (`subprocess.run` inside `run_check`) becomes an
oracle supplying each call's return code and stdout.  Wall-clock
timestamps written to the JSONL logs are modelled by an explicit
environment `Env` that the loop consumes and the compiler never reads.
-/

namespace ValidationGate

/-- `_dedupe` from run_until_green.py: keep the first occurrence of each
value, preserving order. -/
def pyDedupe (xs : List String) : List String :=
  xs.foldl (fun out v => if v ∈ out then out else out ++ [v]) []

/-- Lexicographic code-point comparison on character lists — the order
Python's `sorted` uses on `str`. -/
def charListLe : List Char → List Char → Bool
  | [], _ => true
  | _ :: _, [] => false
  | c :: cs, d :: ds =>
    if c.toNat < d.toNat then true
    else if d.toNat < c.toNat then false
    else charListLe cs ds

/-- `a <= b` on Python strings. -/
def strLe (a b : String) : Bool := charListLe a.toList b.toList

/-- Insert a string into an ascending list, keeping it ascending. -/
def insertSorted (v : String) : List String → List String
  | [] => [v]
  | x :: xs => if strLe v x then v :: x :: xs else x :: insertSorted v xs

/-- Ascending insertion sort on strings (Python `sorted` on str compares
by code points, as Lean's `String` order does). -/
def sortStrings (xs : List String) : List String :=
  xs.foldr insertSorted []

/-- `sorted(set(xs))` from compile_checks.py: drop duplicates, sort ascending. -/
def sortedSet (xs : List String) : List String :=
  sortStrings (pyDedupe xs)

/-- Lookup in an association list modelling `dict.get`: first binding wins
(bindings are kept unique by `assocSet`). -/
def assocGet? {α : Type} (kvs : List (String × α)) (k : String) : Option α :=
  (kvs.find? (fun p => p.1 == k)).map (·.2)

/-- `d[k] = v` on a Python dict: overwrite in place if the key exists,
otherwise append (insertion order preserved). -/
def assocSet {α : Type} (kvs : List (String × α)) (k : String) (v : α) :
    List (String × α) :=
  if kvs.any (fun p => p.1 == k) then
    kvs.map (fun p => if p.1 == k then (k, v) else p)
  else
    kvs ++ [(k, v)]

/-- Round a rational to the nearest integer, ties to even — the rounding
mode of Python's builtin `round`. -/
def roundHalfEven (q : ℚ) : ℤ :=
  let f : ℤ := ⌊q⌋
  let r : ℚ := q - f
  if r < 1/2 then f
  else if 1/2 < r then f + 1
  else if f % 2 = 0 then f else f + 1

/-- Python `round(x, n)` over exact rationals.  The scripts round to 6
(progress scores) and 3 (compile-time gate credit) decimal places; on the
decimal-exact values arising in the claims this agrees with float `round`. -/
def pyRound (q : ℚ) (ndigits : ℕ) : ℚ :=
  (roundHalfEven (q * (10 : ℚ) ^ ndigits) : ℚ) / (10 : ℚ) ^ ndigits

/-- JSON values as read by `json.loads`, plus the distinction Python keeps
between `int` and `float`. -/
inductive J where
  | null : J
  | jb (b : Bool) : J
  | ji (n : ℤ) : J
  | jf (q : ℚ) : J
  | js (s : String) : J
  | ja (elems : List J) : J
  | jo (fields : List (String × J)) : J

/-- `dict.get(k)`: `none` both for a missing key and for a non-dict
receiver (the scripts only call `.get` behind `isinstance(..., dict)`
guards or on values known to be dicts). -/
def J.get? : J → String → Option J
  | .jo kvs, k => assocGet? kvs k
  | _, _ => none

/-- `dict.get(k, default)`. -/
def J.getD (j : J) (k : String) (d : J) : J :=
  (j.get? k).getD d

/-- `isinstance(x, dict)`. -/
def J.isDict : J → Bool
  | .jo _ => true
  | _ => false

/-- `isinstance(x, list)`. -/
def J.isList : J → Bool
  | .ja _ => true
  | _ => false

/-- `x is None`. -/
def J.isNull : J → Bool
  | .null => true
  | _ => false

/-- Python truthiness `bool(x)` on JSON values. -/
def J.truthy : J → Bool
  | .null => false
  | .jb b => b
  | .ji n => n != 0
  | .jf q => q != 0
  | .js s => s != ""
  | .ja xs => !xs.isEmpty
  | .jo kvs => !kvs.isEmpty

/-- `x == s` for a string literal `s` (Python equality between a JSON value
and a `str` is only true for equal strings). -/
def J.isStr : J → String → Bool
  | .js t, s => t == s
  | _, _ => false

/-- `d[k] = v` on a dict value (leaves non-dict values unchanged; the
scripts only assign into dicts). -/
def J.setKey : J → String → J → J
  | .jo kvs, k, v => .jo (assocSet kvs k v)
  | j, _, _ => j

/-- Python `str()` as applied by the scripts.  Renderings of `None`, bools,
ints and strings are exact; floats, lists and dicts are abstracted to fixed
non-empty tokens — the scripts only ever test emptiness of those renderings
(after `.strip()`), and Python renders them non-empty. -/
def pyStr : J → String
  | .null => "None"
  | .jb true => "True"
  | .jb false => "False"
  | .ji n => toString n
  | .jf q => "float:" ++ toString q
  | .js s => s
  | .ja _ => "(list)"
  | .jo _ => "(dict)"

/-- `str.strip()` (whitespace at both ends). -/
def pyStrip (s : String) : String :=
  String.mk (((s.toList.dropWhile Char.isWhitespace).reverse.dropWhile
    Char.isWhitespace).reverse)

/-- `str.lower()` (the scripts only compare the result against ASCII
literals). -/
def pyLower (s : String) : String :=
  String.mk (s.toList.map Char.toLower)

/-- Does the character list start with the given pattern? -/
def leadsWith : List Char → List Char → Bool
  | _, [] => true
  | [], _ :: _ => false
  | c :: cs, p :: ps => c == p && leadsWith cs ps

/-- `s.startswith(pat)`. -/
def strStarts (s pat : String) : Bool :=
  leadsWith s.toList pat.toList

/-- Drop the first `n` characters (`s[n:]`). -/
def strDrop (s : String) (n : ℕ) : String :=
  String.mk (s.toList.drop n)

/-- Accumulate a decimal numeral; `none` on any non-digit. -/
def readDigits : List Char → ℕ → Option ℕ
  | [], acc => some acc
  | c :: cs, acc =>
    if c.isDigit then readDigits cs (acc * 10 + (c.toNat - 48)) else none

/-- Python `int(str)`: optional sign then decimal digits, surrounding
whitespace allowed (underscore digit separators are not modelled). -/
def pyIntParse (s : String) : Option ℤ :=
  match (pyStrip s).toList with
  | [] => none
  | '+' :: rest =>
    if rest.isEmpty then none else (readDigits rest 0).map (fun n => (n : ℤ))
  | '-' :: rest =>
    if rest.isEmpty then none else (readDigits rest 0).map (fun n => -(n : ℤ))
  | cs => (readDigits cs 0).map (fun n => (n : ℤ))

/-- Truncate a rational toward zero, as Python `int(float)` does. -/
def ratTrunc (q : ℚ) : ℤ :=
  if 0 ≤ q then ⌊q⌋ else -⌊-q⌋

/-- Python `int(x)` on a JSON value: `none` models the `TypeError` /
`ValueError` raised on non-numeric input (bools count as ints). -/
def pyInt? : J → Option ℤ
  | .jb b => some (if b then 1 else 0)
  | .ji n => some n
  | .jf q => some (ratTrunc q)
  | .js s => pyIntParse s
  | _ => none

/-- `isinstance(x, (int, float))` followed by `float(x)` — Python bools are
instances of `int`, so they are accepted and coerce to 0.0 / 1.0. -/
def pyFloat? : J → Option ℚ
  | .jb b => some (if b then 1 else 0)
  | .ji n => some (n : ℚ)
  | .jf q => some q
  | _ => none

/-- Is `needle` a contiguous run inside `hay`? -/
def listInfix : List Char → List Char → Bool
  | hay, needle =>
    leadsWith hay needle ||
      (match hay with
       | [] => false
       | _ :: t => listInfix t needle)

/-- `token in s` on Python strings (contiguous substring containment;
the empty token is contained in every string). -/
def strContains (s token : String) : Bool :=
  listInfix s.toList token.toList

/-- The timestamp source (`datetime.now(timezone.utc).isoformat()`); the
`n`-th logging call of a run observes `clock n`. -/
structure Env where
  clock : ℕ → String

namespace CompileChecks

/-- A normalised check, as produced by `normalise_checks`. -/
structure Check where
  name : String
  command : String
  pass_condition : String
deriving DecidableEq, Repr

/-- One pass of the loop body of `normalise_checks` (index is 0-based, as
`enumerate` yields it). -/
def normCheckOne (index : ℕ) (item : J) : Option Check :=
  match item with
  | J.jo _ =>
    let name := pyStrip (pyStr (item.getD "name" (J.js ("check-" ++ toString (index + 1)))))
    let command := pyStrip (pyStr (item.getD "command" (J.js "")))
    let pass_condition := pyStrip (pyStr (item.getD "pass_condition" (J.js "exit_code_zero")))
    if command = "" then none else some ⟨name, command, pass_condition⟩
  | _ => none

/-- `normalise_checks`: non-list input yields no checks; non-dict entries and
entries without a command are dropped. -/
def normalise_checks (raw : J) : List Check :=
  match raw with
  | J.ja xs => xs.enum.filterMap (fun p => normCheckOne p.1 p.2)
  | _ => []

/-- A normalised checklist item, as produced by `normalise_checklist`
(every field present). -/
structure ChecklistItem where
  item_id : String
  question : String
  evidence_required : List String
  strictness : String
  depends_on : List String
  status : String
  satisfied_at_step : Option ℤ
  evidence_refs : List String
  pass_when_check : String
deriving DecidableEq, Repr

/-- `[str(v) for v in x] if isinstance(x, list) else []`. -/
def strListOf (j : J) : List String :=
  match j with
  | J.ja xs => xs.map pyStr
  | _ => []

/-- The dependency graph of `_checklist_cycle`: a dict comprehension keyed
by `item_id`, so a duplicated id keeps its first position but its last
`depends_on` value. -/
def buildGraph (items : List ChecklistItem) : List (String × List String) :=
  items.foldl (fun g item => assocSet g item.item_id item.depends_on) []

/-- The `for dep in graph.get(node, [])` loop inside `dfs`: recurse only
into deps that are graph keys, short-circuiting on the first `True`.  The
recursive `dfs` call is passed in as `f`, keeping the recursion structural
on the fuel of `dfsGo`. -/
def dfsDeps (graph : List (String × List String))
    (f : String → List String → List String → Bool × List String) :
    List String → List String → List String → Bool × List String
  | [], visited, _ => (false, visited)
  | dep :: rest, visited, stack =>
    if graph.any (fun p => p.1 == dep) then
      match f dep visited stack with
      | (true, v) => (true, v)
      | (false, v) => dfsDeps graph f rest v stack
    else dfsDeps graph f rest visited stack

/-- The recursive `dfs` of `_checklist_cycle`.  Returns the boolean result
together with the updated `visited` set (the Python sets are closures
mutated in place; on a `False` return the stack additions have been undone,
so only `visited` needs threading).  The fuel counts recursion depth; each
level marks a previously unvisited graph key, so depth never exceeds the
number of keys and fuel `|graph| + 1` is never exhausted (the fuel-out
value is arbitrary). -/
def dfsGo (graph : List (String × List String)) :
    ℕ → String → List String → List String → Bool × List String
  | 0, _, visited, _ => (true, visited)
  | fuel + 1, node, visited, stack =>
    if node ∈ stack then (true, visited)
    else if node ∈ visited then (false, visited)
    else dfsDeps graph (dfsGo graph fuel)
      ((assocGet? graph node).getD []) (node :: visited) (node :: stack)

/-- The `any(dfs(node) for node in graph)` driver: `visited` persists
across start nodes, the stack starts empty at each root. -/
def cycleAny (graph : List (String × List String)) (fuel : ℕ) :
    List String → List String → Bool
  | [], _ => false
  | node :: rest, visited =>
    match dfsGo graph fuel node visited [] with
    | (true, _) => true
    | (false, v) => cycleAny graph fuel rest v

/-- `_checklist_cycle`. -/
def checklist_cycle (items : List ChecklistItem) : Bool :=
  let graph := buildGraph items
  cycleAny graph (graph.length + 1) (graph.map (·.1)) []

/-- `f"item-{idx:03d}"`: zero-pad to at least three digits. -/
def pad3 (n : ℕ) : String :=
  if n < 10 then "00" ++ toString n
  else if n < 100 then "0" ++ toString n
  else toString n

/-- One pass of the item loop of `normalise_checklist` (1-based index):
either a reason code (malformed item, skipped) or a normalised item
together with the reason codes it contributed. -/
def normItemOne (idx : ℕ) (item : J) : List String ⊕ (ChecklistItem × List String) :=
  match item with
  | J.jo _ =>
    let item_id := pyStrip (pyStr (item.getD "item_id" (J.js ("item-" ++ pad3 idx))))
    let question := pyStrip (pyStr (item.getD "question" (J.js "")))
    let evidence_required := strListOf (item.getD "evidence_required" (J.ja []))
    let strictness := pyStrip (pyStr (item.getD "strictness" (J.js "normal")))
    let depends_on := strListOf (item.getD "depends_on" (J.ja []))
    let status := pyStrip (pyStr (item.getD "status" (J.js "unsatisfied")))
    let satisfied_at_step :=
      match item.getD "satisfied_at_step" J.null with
      | J.ji n => some n
      | J.jb b => some (if b then (1 : ℤ) else 0)
      | _ => none
    let evidence_refs := strListOf (item.getD "evidence_refs" (J.ja []))
    let pass_when_check := pyStrip (pyStr (item.getD "pass_when_check" (J.js item_id)))
    if question = "" ∨ item_id = "" then
      Sum.inl ["schema_violation/checklist_contract_missing_required"]
    else
      let (strictness, codes) :=
        if strictness ≠ "strict" ∧ strictness ≠ "normal" then
          ("normal", ["schema_violation/checklist_invalid_strictness"])
        else (strictness, [])
      let status :=
        if status ≠ "unsatisfied" ∧ status ≠ "satisfied" ∧ status ≠ "blocked" then
          "unsatisfied"
        else status
      Sum.inr (⟨item_id, question, evidence_required, strictness, depends_on,
        status, satisfied_at_step, evidence_refs, pass_when_check⟩, codes)
  | _ => Sum.inl ["schema_violation/checklist_contract_missing_required"]

/-- The item loop of `normalise_checklist`, accumulating items and codes. -/
def normItems (raw_items : List J) : List ChecklistItem × List String :=
  (raw_items.enum.foldl
    (fun acc p =>
      match normItemOne (p.1 + 1) p.2 with
      | Sum.inl codes => (acc.1, acc.2 ++ codes)
      | Sum.inr (item, codes) => (acc.1 ++ [item], acc.2 ++ codes))
    ([], []))

/-- The checklist contract dict assembled by `normalise_checklist`. -/
structure ChecklistContract where
  run_id : String
  items : List ChecklistItem
  termination_policy : String
  reason_codes : List String
  version : String
deriving DecidableEq, Repr

/-- `normalise_checklist`: returns the contract and the reason-code list
(`sorted(set(...))`). -/
def normalise_checklist (raw : J) (run_id : String) : ChecklistContract × List String :=
  match raw with
  | J.jo _ =>
    let raw_items := match raw.getD "items" (J.ja []) with
      | J.ja xs => xs
      | _ => []
    let (items, codes) := normItems raw_items
    let codes := if checklist_cycle items then
        codes ++ ["schema_violation/checklist_dependency_cycle"]
      else codes
    (⟨run_id, items, pyStr (raw.getD "termination_policy" (J.js "strict_gate")),
      sortedSet codes, pyStr (raw.getD "version" (J.js "1.0.0"))⟩,
     sortedSet codes)
  | _ => (⟨run_id, [], "strict_gate", [], "1.0.0"⟩, [])

/-- The field sets checked by the evidence/pointer validators (Python
`set` literals; iteration order only affects pre-dedup duplicates). -/
def EVIDENCE_REQUIRED_FIELDS : List String :=
  ["source", "location", "span", "confidence"]

def LETTA_POINTER_REQUIRED_FIELDS : List String :=
  ["provider", "folder_id", "document_id", "source_uri", "content_hash",
   "synced_at_unix", "provenance_tag"]

/-- Codes contributed by one entry of `_validate_evidence_objects`
(compile_checks variant). -/
def evidenceCodesOne (item : J) : List String :=
  match item with
  | J.jo _ =>
    let missing := EVIDENCE_REQUIRED_FIELDS.filter (fun k => (item.get? k).isNone)
    (if missing.isEmpty then [] else ["schema_violation/evidence_object_missing_required"])
    ++ (match pyFloat? (item.getD "confidence" J.null) with
        | none => ["schema_violation/evidence_object_invalid_type"]
        | some c =>
          if c < 0 ∨ 1 < c then ["validation_failed/evidence_confidence_out_of_range"] else [])
    ++ (match item.get? "location" with
        | some v => if v.isDict then [] else ["schema_violation/evidence_object_invalid_type"]
        | none => [])
  | _ => ["schema_violation/evidence_object_invalid_type"]

/-- `_validate_evidence_objects` (compile_checks variant, `sorted(set(...))`). -/
def validate_evidence_objects (raw : J) : List String :=
  match raw with
  | J.ja xs => sortedSet (xs.foldl (fun acc item => acc ++ evidenceCodesOne item) [])
  | _ => []

/-- Codes contributed by one entry of `_validate_letta_pointers`
(compile_checks variant). -/
def lettaPointerCodesOne (item : J) : List String :=
  match item with
  | J.jo _ =>
    let missing := LETTA_POINTER_REQUIRED_FIELDS.filter (fun k => (item.get? k).isNone)
    (if missing.isEmpty then [] else ["schema_violation/letta_pointer_missing_required"])
    ++ (match item.getD "provider" J.null with
        | J.null => []
        | v => if v.isStr "letta" then [] else ["schema_violation/letta_pointer_invalid_type"])
    ++ (if pyStrip (pyStr (item.getD "content_hash" (J.js ""))) = "" then
          ["validation_failed/letta_pointer_hash_missing"] else [])
    ++ (match pyFloat? (item.getD "synced_at_unix" J.null) with
        | none => ["schema_violation/letta_pointer_invalid_type"]
        | some t => if t ≤ 0 then ["validation_failed/letta_pointer_stale_sync"] else [])
    ++ (if ((match item.getD "stale" (J.jb false) with | J.jb true => true | _ => false)
          || (match item.getD "is_stale" (J.jb false) with | J.jb true => true | _ => false) : Bool) then
          ["validation_failed/letta_pointer_stale_sync"] else [])
  | _ => ["schema_violation/letta_pointer_invalid_type"]

/-- `_validate_letta_pointers` (compile_checks variant). -/
def validate_letta_pointers (raw : J) : List String :=
  match raw with
  | J.null => []
  | J.ja xs => sortedSet (xs.foldl (fun acc item => acc ++ lettaPointerCodesOne item) [])
  | _ => ["schema_violation/letta_pointer_invalid_type"]

/-- `_validate_correction_rollout` (compile_checks variant). -/
def validate_correction_rollout (raw : J) : List String :=
  match raw with
  | J.null => []
  | J.jo _ =>
    sortedSet (
      (["run_id", "task_signature", "attempt_1", "attempt_2"].filterMap
        (fun key =>
          if pyStrip (pyStr (raw.getD key (J.js ""))) = "" then
            some "schema_violation/correction_rollout_missing_required"
          else none))
      ++ (if (raw.get? "attempt_2").isSome ∧
             pyStrip (pyStr (raw.getD "attempt_2" (J.js ""))) = "" then
            ["validation_failed/self_correction_missing_o2"] else [])
      ++ (if ((raw.get? "task_signature").isSome
             && (match raw.get? "task_signature" with
                 | some (J.js _) => false
                 | _ => true) : Bool) then
            ["schema_violation/correction_rollout_mismatched_task_signature"] else []))
  | _ => ["schema_violation/correction_rollout_missing_required"]

/-- One named gate score (`{"passed": ..., "weight": ...}`). -/
structure GateScore where
  passed : Bool
  weight : ℚ
deriving Repr

/-- The `gate_scores` dict of a successfully compiled contract. -/
structure CompileGateScores where
  checks_present : GateScore
  checklist_present : GateScore
  stop_conditions_present : GateScore
  evidence_paths_present : GateScore
  memory_bundle_valid : GateScore
  execution_audit_valid : GateScore
deriving Repr

/-- The immutable Contract dict written to `contract.json` on success. -/
structure CompiledContract where
  run_id : String
  checks : List Check
  checklist_contract : ChecklistContract
  memory_update_bundle : J
  execution_audit : J
  evidence_objects : J
  external_context_pointers : List J
  external_context_policy : J
  trust_level : String
  strict_evidence_objects : Bool
  correction_rollout : J
  max_iterations : ℤ
  stop_conditions : J
  failure_policy : String
  evidence_paths : J
  gate_scores : CompileGateScores
  progress_delta : ℚ
  reason_codes : List String

/-- The fail-closed payload printed by `_fail_payload` (the `skill_result`
sub-dict is flattened into the fields after `reason_codes`). -/
structure FailPayload where
  error : String
  reason_codes : List String
  ok : Bool
  check_count : ℕ
  failure_codes : List String
  checks_present_gate : Bool
  progress_delta : ℚ
  skill_reason_codes : List String

/-- `_fail_payload`. -/
def fail_payload (run_id : String) (reason_codes : List String) (check_count : ℕ) :
    FailPayload :=
  let _ := run_id   -- only echoed into the tool-call params hash
  { error := "Validation contract is invalid. Gate fails closed."
    reason_codes := reason_codes
    ok := false
    check_count := check_count
    failure_codes := reason_codes
    checks_present_gate := check_count > 0
    progress_delta := 0
    skill_reason_codes := reason_codes }

/-- Result of one `compile_checks.main` invocation; the process exit status
is 1 on `fail` and 0 on `ok`. -/
inductive CompileOutcome where
  | fail (payload : FailPayload)
  | ok (contract : CompiledContract) (check_count : ℕ) (checklist_item_count : ℕ)

def CompileOutcome.exitStatus : CompileOutcome → ℕ
  | .fail _ => 1
  | .ok _ _ _ => 0

/-- `true` iff a contract file is written. -/
def CompileOutcome.emitsContract : CompileOutcome → Bool
  | .fail _ => false
  | .ok _ _ _ => true

def CompileOutcome.contract? : CompileOutcome → Option CompiledContract
  | .fail _ => none
  | .ok c _ _ => some c

def CompileOutcome.reasonCodes : CompileOutcome → List String
  | .fail p => p.reason_codes
  | .ok c _ _ => c.reason_codes

/-- The reason codes the memory-bundle block of `main` accumulates when
`memory_required` holds. -/
def memoryBundleCodes (memory_bundle : J) : List String :=
  (["worktree_path", "candidate_changes", "evidence_refs", "commit_message",
    "reason_codes"].filterMap
    (fun key =>
      if (memory_bundle.get? key).isNone then
        some "schema_violation/memory_update_bundle_missing_required"
      else none))
  ++ (if memory_bundle.truthy ∧ ¬(memory_bundle.getD "commit_message" J.null).truthy then
        ["validation_failed/memory_commit_missing"] else [])
  ++ (if memory_bundle.truthy ∧ ¬(memory_bundle.getD "evidence_refs" J.null).truthy then
        ["validation_failed/memory_provenance_missing"] else [])
  ++ (if (memory_bundle.getD "defrag_run" (J.jb false)).truthy ∧
         ¬(memory_bundle.getD "relocation_pointers" J.null).truthy then
        ["validation_failed/defrag_relocation_missing"] else [])

/-- The letta / publish-governance codes shared (textually) by both
scripts' `main` functions. -/
def lettaMainCodes (letta_runtime_enabled : Bool) (letta_agent_id : String)
    (letta_sync_status : String) (letta_sync_stale : Bool)
    (letta_publish_attempted : Bool) (validator_passed : Bool)
    (governor_approved : Bool) : List String :=
  (if letta_runtime_enabled ∧ letta_agent_id = "" then
    ["validation_failed/letta_agent_missing"] else [])
  ++ (if letta_runtime_enabled ∧ letta_sync_status = "" then
    ["validation_failed/letta_sync_missing"] else [])
  ++ (if letta_runtime_enabled ∧ letta_sync_status = "degraded" then
    ["integration_degraded/letta_sync_failed"] else [])
  ++ (if letta_sync_stale then ["integration_degraded/letta_stale"] else [])
  ++ (if letta_publish_attempted ∧ ¬validator_passed then
    ["validation_failed/letta_publish_without_gate"] else [])
  ++ (if letta_publish_attempted ∧ ¬governor_approved then
    ["policy_violation/letta_publish_without_governor"] else [])

/-- The trust-level codes shared by both scripts' `main` functions
(`doc` is the task for the compiler, the contract for the runner). -/
def trustCodes (trust_level : String) (execution_audit doc : J) : List String :=
  if trust_level = "untrusted" ∨ trust_level = "generated_untrusted" then
    (if pyStrip (pyStr (execution_audit.getD "execution_profile"
          (doc.getD "requested_profile" (J.js "")))) = "" then
      ["validation_failed/missing_execution_profile"] else [])
    ++ (if pyStrip (pyStr (execution_audit.getD "audit_ref"
          (doc.getD "audit_ref" (J.js "")))) = "" then
      ["validation_failed/missing_execution_audit_ref"] else [])
  else []

/-- The `direct_external_write` disjunction shared by both `main`s. -/
def directExternalWrite (doc memory_bundle : J) : Bool :=
  (doc.getD "direct_external_memory_write" (J.jb false)).truthy
  || (doc.getD "external_memory_write_committed" (J.jb false)).truthy
  || (memory_bundle.getD "direct_external_memory_write" (J.jb false)).truthy
  || (memory_bundle.getD "external_write_committed" (J.jb false)).truthy

/-- The full reason-code accumulation of `compile_checks.main`
(lines 246–291), before `sorted(set(...))`. -/
def compileRawReasonCodes (task : J) (run_id : String) : List String :=
  let checks := normalise_checks (task.getD "acceptance_tests" (J.ja []))
  let checklist_codes := (normalise_checklist (task.getD "checklist_contract" (J.jo [])) run_id).2
  let memory_bundle := if (task.getD "memory_update_bundle" (J.jo [])).isDict then
      task.getD "memory_update_bundle" (J.jo []) else J.jo []
  let execution_audit := if (task.getD "execution_audit" (J.jo [])).isDict then
      task.getD "execution_audit" (J.jo []) else J.jo []
  let evidence_objects := task.getD "evidence_objects" (task.getD "evidence_refs" (J.ja []))
  let external_context_pointers := match task.getD "external_context_pointers" (J.ja []) with
    | J.ja xs => xs
    | _ => []
  let memory_required := (match task.get? "task_tag" with
    | some v => v.isStr "memory_write"
    | none => false) || memory_bundle.truthy
  let trust_level := pyStr (task.getD "trust_level"
    (execution_audit.getD "trust_level" (J.js "trusted")))
  let strict_evidence := (task.getD "strict_evidence_objects" (J.jb false)).truthy
  let external_context_policy := if (task.getD "external_context_policy" (J.jo [])).isDict then
      task.getD "external_context_policy" (J.jo []) else J.jo []
  let correction_rollout := match task.getD "correction_rollout" (J.jo []) with
    | J.null => J.null
    | J.jo kvs => J.jo kvs
    | _ => J.jo []
  let letta_runtime_enabled := (task.getD "letta_runtime_enabled" (J.jb false)).truthy
  let letta_agent_id := pyStrip (pyStr (task.getD "letta_agent_id" (J.js "")))
  let letta_sync_status := pyLower (pyStrip (pyStr (task.getD "letta_sync_status" (J.js ""))))
  let letta_publish_attempted := (task.getD "letta_publish_attempted" (J.jb false)).truthy
  let validator_passed := (task.getD "validator_passed" (J.jb false)).truthy
  let governor_approved := (task.getD "governor_approved" (J.jb false)).truthy
  (if checks.isEmpty then
    ["validation_failed/tests_not_run", "schema_violation/validation_contract_missing_checks"]
   else [])
  ++ checklist_codes
  ++ (if memory_required then memoryBundleCodes memory_bundle else [])
  ++ (if strict_evidence then validate_evidence_objects evidence_objects else [])
  ++ (if correction_rollout.truthy then validate_correction_rollout correction_rollout else [])
  ++ lettaMainCodes letta_runtime_enabled letta_agent_id letta_sync_status
       (task.getD "letta_sync_stale" (J.jb false)).truthy
       letta_publish_attempted validator_passed governor_approved
  ++ (if !external_context_pointers.isEmpty then
        validate_letta_pointers (J.ja external_context_pointers) else [])
  ++ (if (external_context_policy.getD "direct_external_writes_forbidden" (J.jb true)).truthy
         ∧ directExternalWrite task memory_bundle then
        ["policy_violation/letta_direct_memory_write_forbidden"] else [])
  ++ trustCodes trust_level execution_audit task

/-- `reason_codes = sorted(set(reason_codes))` at line 291. -/
def compileReasonCodes (task : J) (run_id : String) : List String :=
  sortedSet (compileRawReasonCodes task run_id)

/-- `compile_checks.main` as a function of the task document, the run id
and the ambient environment (which it never reads: the script imports no
clock and no randomness source).  `none` models an uncaught exception:
`read_json` on a non-dict document, or `int(task.get("max_iterations", 5))`
on a non-numeric value — the latter is only reached on the success path. -/
def compileMain (task : J) (run_id : String) (_env : Env) : Option CompileOutcome :=
  match task with
  | J.jo _ =>
    let checks := normalise_checks (task.getD "acceptance_tests" (J.ja []))
    let (checklist_contract, _) :=
      normalise_checklist (task.getD "checklist_contract" (J.jo [])) run_id
    let memory_bundle := if (task.getD "memory_update_bundle" (J.jo [])).isDict then
        task.getD "memory_update_bundle" (J.jo []) else J.jo []
    let execution_audit := if (task.getD "execution_audit" (J.jo [])).isDict then
        task.getD "execution_audit" (J.jo []) else J.jo []
    let evidence_objects := task.getD "evidence_objects" (task.getD "evidence_refs" (J.ja []))
    let external_context_pointers := match task.getD "external_context_pointers" (J.ja []) with
      | J.ja xs => xs
      | _ => []
    let memory_required := (match task.get? "task_tag" with
      | some v => v.isStr "memory_write"
      | none => false) || memory_bundle.truthy
    let trust_level := pyStr (task.getD "trust_level"
      (execution_audit.getD "trust_level" (J.js "trusted")))
    let strict_evidence := (task.getD "strict_evidence_objects" (J.jb false)).truthy
    let external_context_policy := if (task.getD "external_context_policy" (J.jo [])).isDict then
        task.getD "external_context_policy" (J.jo []) else J.jo []
    let correction_rollout := match task.getD "correction_rollout" (J.jo []) with
      | J.null => J.null
      | J.jo kvs => J.jo kvs
      | _ => J.jo []
    let reason_codes := compileReasonCodes task run_id
    if reason_codes ≠ [] then
      some (.fail (fail_payload run_id reason_codes checks.length))
    else
      match pyInt? (task.getD "max_iterations" (J.ji 5)) with
      | none => none
      | some max_iterations =>
        some (.ok
          { run_id := run_id
            checks := checks
            checklist_contract := checklist_contract
            memory_update_bundle := memory_bundle
            execution_audit := execution_audit
            evidence_objects := if evidence_objects.isList then evidence_objects else J.ja []
            external_context_pointers := external_context_pointers
            external_context_policy := external_context_policy
            trust_level := trust_level
            strict_evidence_objects := strict_evidence
            correction_rollout := correction_rollout
            max_iterations := max_iterations
            stop_conditions := task.getD "stop_conditions" (J.ja [J.js "all_checks_pass"])
            failure_policy := "fail_closed"
            evidence_paths := task.getD "evidence_paths" (J.ja [])
            gate_scores :=
              { checks_present := ⟨true, 4/10⟩
                checklist_present := ⟨!checklist_contract.items.isEmpty, 3/10⟩
                stop_conditions_present := ⟨(task.getD "stop_conditions" J.null).truthy, 1/10⟩
                evidence_paths_present := ⟨(task.getD "evidence_paths" (J.ja [])).truthy, 1/10⟩
                memory_bundle_valid :=
                  ⟨!memory_required
                    || ((memory_bundle.getD "worktree_path" J.null).truthy
                        && (memory_bundle.getD "evidence_refs" J.null).truthy
                        && (memory_bundle.getD "commit_message" J.null).truthy), 1/10⟩
                execution_audit_valid :=
                  ⟨(trust_level ≠ "untrusted" ∧ trust_level ≠ "generated_untrusted")
                    ∨ (pyStrip (pyStr (execution_audit.getD "execution_profile"
                          (task.getD "requested_profile" (J.js "")))) ≠ ""
                       ∧ pyStrip (pyStr (execution_audit.getD "audit_ref"
                          (task.getD "audit_ref" (J.js "")))) ≠ ""), 1/10⟩ }
            progress_delta := pyRound (min 1 ((checks.length : ℚ) / 10)) 3
            reason_codes := [] }
          checks.length checklist_contract.items.length)
  | _ => none

end CompileChecks

namespace RunUntilGreen

/-- A check as the runner reads it from the contract JSON: `name` and
`pass_condition` are `str(...)`-coerced with defaults, `command` is read by
`check["command"]` and handed opaquely to the subprocess. -/
structure RunCheck where
  name : String
  command : J
  pass_condition : String

/-- Extraction of one entry of `contract["checks"]`; `none` models the
`KeyError`/`TypeError` a non-dict entry or a missing `command` raises when
`run_check` first touches it. -/
def extractRunCheck (j : J) : Option RunCheck :=
  match j with
  | J.jo _ =>
    match j.get? "command" with
    | some cmd => some
        { name := pyStr (j.getD "name" (J.js ""))
          command := cmd
          pass_condition := pyStr (j.getD "pass_condition" (J.js "exit_code_zero")) }
    | none => none
  | _ => none

/-- `passes` from run_until_green.py. -/
def passes (pass_condition : String) (returncode : ℤ) (stdout : String) : Bool :=
  if pass_condition = "exit_code_zero" then returncode == 0
  else if strStarts pass_condition "stdout_contains:" then
    strContains stdout (strDrop pass_condition 16)
  else returncode == 0

/-- The subprocess boundary: call number `idx` of the check list on
iteration `i` (main run when `diag = false`, within-iteration diagnostic
re-run when `diag = true`) returns this exit code and stdout.  Each
`subprocess.run` call is an independent observation, so outcomes may
differ between the main and diagnostic runs of the same iteration. -/
structure Oracle where
  run : ℕ → Bool → ℕ → ℤ × String

/-- Result of the `for check in checks` loop at the top of an iteration. -/
structure CheckPhase where
  pass_map : List (String × Bool) := []
  iteration_passed : Bool := true
  passed_checks : ℕ := 0

/-- Run every check once through the oracle, building
`check_pass_map[name] = passed` (later duplicate names overwrite),
`iteration_passed` and `passed_checks`. -/
def runChecksPhase (checks : List RunCheck) (oracle : Oracle) (i : ℕ) (diag : Bool) :
    CheckPhase :=
  checks.enum.foldl
    (fun acc p =>
      let (rc, out) := oracle.run i diag p.1
      let ok := passes p.2.pass_condition rc out
      { pass_map := assocSet acc.pass_map p.2.name ok
        iteration_passed := acc.iteration_passed && ok
        passed_checks := acc.passed_checks + (if ok then 1 else 0) })
    {}

/-- Python iteration of `[str(dep) for dep in x]`: lists yield their
elements, strings their characters, dicts their keys; other values raise
`TypeError` (`none`). -/
def jStrIter (j : J) : Option (List String) :=
  match j with
  | J.ja xs => some (xs.map pyStr)
  | J.js s => some (s.toList.map (fun c => String.mk [c]))
  | J.jo kvs => some (kvs.map (·.1))
  | _ => none

/-- Accumulator of `_build_checklist_state`: the four result lists plus the
`state_map` of statuses assigned so far this iteration. -/
structure BuildAcc where
  state : List J := []
  flips : List String := []
  strict_fails : List String := []
  strict_blocked : List String := []
  state_map : List (String × String) := []

/-- One pass of the item loop of `_build_checklist_state`.  `none` models
the exception a non-dict item (no `.get`) or a non-iterable `depends_on`
raises.  Note `current_status` is read from the item, as the source does
at line 92, and then never used: the status is recomputed from scratch. -/
def buildOne (check_pass_map : List (String × Bool)) (iteration : ℕ)
    (acc : BuildAcc) (item : J) : Option BuildAcc :=
  match item with
  | J.jo _ =>
    let item_id := pyStr (item.getD "item_id" (J.js ""))
    match jStrIter (item.getD "depends_on" (J.ja [])) with
    | none => none
    | some depends_on =>
      let dep_blocked := depends_on.filter
        (fun dep => assocGet? acc.state_map dep ≠ some "satisfied")
      let pass_when := pyStr (item.getD "pass_when_check" (J.js item_id))
      let _current_status := pyStr (item.getD "status" (J.js "unsatisfied"))
      let status := if !dep_blocked.isEmpty then "blocked"
        else if (assocGet? check_pass_map pass_when).getD false then "satisfied"
        else "unsatisfied"
      let sas0 := (item.get? "satisfied_at_step").getD J.null
      let sas1 := if status = "satisfied" ∧ sas0.isNull then
          J.ji (iteration : ℤ) else sas0
      let flips := if status = "satisfied" ∧ sas0.isNull then
          acc.flips ++ [item_id] else acc.flips
      let sas2 := if status ≠ "satisfied" then J.null else sas1
      let strict := (item.getD "strictness" J.null).isStr "strict"
      some
        { state := acc.state ++ [(item.setKey "status" (J.js status)).setKey
            "satisfied_at_step" sas2]
          flips := flips
          strict_fails := if strict ∧ status = "unsatisfied" then
              acc.strict_fails ++ [item_id] else acc.strict_fails
          strict_blocked := if strict ∧ status = "blocked" then
              acc.strict_blocked ++ [item_id] else acc.strict_blocked
          state_map := assocSet acc.state_map item_id status }
  | _ => none

/-- `_build_checklist_state`. -/
def build_checklist_state (items : List J) (check_pass_map : List (String × Bool))
    (iteration : ℕ) : Option BuildAcc :=
  items.foldlM (buildOne check_pass_map iteration) {}

/-- One `checklist_delta` entry. -/
structure ChecklistDelta where
  iteration : ℕ
  flipped_to_satisfied : List String
  strict_fail_item_ids : List String
  strict_blocked_item_ids : List String
deriving DecidableEq, Repr

/-- The `diagnostic_result` dict. -/
structure DiagResult where
  diagnostic_progress : ℚ
  diagnostic_delta : ℚ
  diagnostic_passed_checks : ℕ
deriving DecidableEq, Repr

/-- Which of the three `break` statements ended the loop on an iteration
(none: the iteration fell through to the next). -/
inductive BreakKind where
  | strict
  | passed
  | diag
deriving DecidableEq, Repr

/-- One iteration's worth of the events the runner appends to
`iteration_log.jsonl` / `checklist_timeline.jsonl`: the per-check events,
the `progress_delta` event (whose `consecutive_no_progress` field is
`counter_after`), the checklist delta, and the diagnostic events. -/
structure IterRecord where
  iteration : ℕ
  entering_counter : ℕ
  entering_previous : Option ℚ
  pass_map : List (String × Bool)
  iteration_passed : Bool
  passed_checks : ℕ
  progress_score : ℚ
  progress_delta : ℚ
  no_progress_step : Bool
  counter_after : ℕ
  flipped_to_satisfied : List String
  strict_fails : List String
  strict_blocked : List String
  diagnostic_fired : Bool
  diagnostic_progress : Option ℚ
  diagnostic_delta : Option ℚ
  counter_exit : ℕ
  break_kind : Option BreakKind
deriving DecidableEq, Repr

/-- The timestamp bookkeeping of the two JSONL log files: how many log
lines have been written, and the timestamps they carried. -/
structure LogBook where
  event_count : ℕ := 0
  log_timestamps : List String := []
deriving DecidableEq, Repr

/-- Record one timestamped log write. -/
def stampL (env : Env) (lb : LogBook) : LogBook :=
  ⟨lb.event_count + 1, lb.log_timestamps ++ [env.clock lb.event_count]⟩

/-- Record `n` consecutive timestamped log writes. -/
def stampLN (env : Env) : ℕ → LogBook → LogBook
  | 0, lb => lb
  | n + 1, lb => stampLN env n (stampL env lb)

/-- The loop-carried locals of `run_until_green.main` (lines 217–232),
plus the modelled log trace and timestamp bookkeeping. -/
structure LoopState where
  all_passed : Bool := false
  aborted : Bool := false
  strict_early_terminated : Bool := false
  iterations : ℕ := 0
  reason_codes : List String := []
  progress_history : List ℚ := []
  progress_deltas : List ℚ := []
  checklist_deltas : List ChecklistDelta := []
  previous_progress : Option ℚ := none
  consecutive_no_progress : ℕ := 0
  max_consecutive_no_progress : ℕ := 0
  strategy_switch_tag : Option String := none
  diagnostic_ran : Bool := false
  diagnostic_result : Option DiagResult := none
  latest_checklist_state : List J
  strict_fail_item_ids : List String := []
  trace : List IterRecord := []
  logbook : LogBook := {}

/-- The numeric quantities one iteration derives from the check runs
(lines 241–274 and 349–368).  All are pure functions of the oracle; the
three diagnostic fields are only consulted on the stagnation branch,
mirroring that the source computes them there. -/
structure IterComputed where
  phase : CheckPhase
  progress_score : ℚ
  progress_delta : ℚ
  no_progress_step : Bool
  counter : ℕ
  diagPhase : CheckPhase
  diagnostic_progress : ℚ
  diagnostic_delta : ℚ

/-- Compute the per-iteration quantities from the oracle and the entering
state. -/
def iterComputed (checks : List RunCheck) (oracle : Oracle) (i : ℕ)
    (st0 : LoopState) : IterComputed :=
  let phase := runChecksPhase checks oracle i false
  let denom : ℚ := max 1 (checks.length : ℚ)
  let progress_score := pyRound ((phase.passed_checks : ℚ) / denom) 6
  let progress_delta := pyRound
    (match st0.previous_progress with
     | some p => progress_score - p
     | none => progress_score) 6
  let no_progress_step := st0.previous_progress.isSome && decide (progress_delta ≤ 0)
  let counter := if no_progress_step then st0.consecutive_no_progress + 1 else 0
  let diagPhase := runChecksPhase checks oracle i true
  let diagnostic_progress := pyRound ((diagPhase.passed_checks : ℚ) / denom) 6
  let diagnostic_delta := pyRound (diagnostic_progress - progress_score) 6
  ⟨phase, progress_score, progress_delta, no_progress_step, counter,
   diagPhase, diagnostic_progress, diagnostic_delta⟩

/-- The control flow of one loop iteration (lines 235–395), over the
already-computed quantities `v`.  Returns the updated state and whether
the loop continues; `none` models an exception raised while rebuilding
the checklist state. -/
def runIterationAux (checks : List RunCheck) (checklist_items : List J)
    (env : Env) (i : ℕ) (st0 : LoopState) (v : IterComputed) :
    Option (LoopState × Bool) :=
  let lb := stampL env (stampLN env checks.length st0.logbook)
  let st := { st0 with
    iterations := i
    progress_history := st0.progress_history ++ [v.progress_score]
    progress_deltas := st0.progress_deltas ++ [v.progress_delta]
    consecutive_no_progress := v.counter
    max_consecutive_no_progress := max st0.max_consecutive_no_progress v.counter
    previous_progress := some v.progress_score
    logbook := lb }
  let mkRec := fun (flips sf sb : List String) (diagFired : Bool)
      (diagProg diagDelta : Option ℚ) (counterExit : ℕ)
      (breakKind : Option BreakKind) =>
    ({ iteration := i
       entering_counter := st0.consecutive_no_progress
       entering_previous := st0.previous_progress
       pass_map := v.phase.pass_map
       iteration_passed := v.phase.iteration_passed
       passed_checks := v.phase.passed_checks
       progress_score := v.progress_score
       progress_delta := v.progress_delta
       no_progress_step := v.no_progress_step
       counter_after := v.counter
       flipped_to_satisfied := flips
       strict_fails := sf
       strict_blocked := sb
       diagnostic_fired := diagFired
       diagnostic_progress := diagProg
       diagnostic_delta := diagDelta
       counter_exit := counterExit
       break_kind := breakKind } : IterRecord)
  let chk? : Option (Option BuildAcc) :=
    if checklist_items.isEmpty then some none
    else (build_checklist_state st.latest_checklist_state v.phase.pass_map i).map some
  match chk? with
  | none => none
  | some chk =>
    let (st, flips, sf, sb) :=
      match chk with
      | none => (st, [], [], [])
      | some acc =>
        let st := { st with
          latest_checklist_state := acc.state
          strict_fail_item_ids := acc.strict_fails
          checklist_deltas := st.checklist_deltas ++
            ([⟨i, acc.flips, acc.strict_fails, acc.strict_blocked⟩] : List ChecklistDelta)
          logbook := stampL env st.logbook }
        (st, acc.flips, acc.strict_fails, acc.strict_blocked)
    if !sf.isEmpty then
      let st := { st with
        strict_early_terminated := true
        aborted := true
        reason_codes := st.reason_codes ++
          ["validation_failed/checklist_strict_failed",
           "evidence_missing/checklist_evidence_missing"] }
      some ({ st with trace := st.trace ++
        [mkRec flips sf sb false none none v.counter (some .strict)] }, false)
    else if v.phase.iteration_passed then
      some ({ st with
        all_passed := true
        trace := st.trace ++
          [mkRec flips sf sb false none none v.counter (some .passed)] }, false)
    else if v.counter ≥ 2 then
      let st := { st with
        strategy_switch_tag := some "stalled_no_progress"
        reason_codes := st.reason_codes ++ ["no_progress/no_progress_loop"]
        logbook := stampL env st.logbook }
      let st := { st with diagnostic_ran := true }
      let st := { st with logbook := stampLN env checks.length st.logbook }
      let dres : DiagResult :=
        ⟨v.diagnostic_progress, v.diagnostic_delta, v.diagPhase.passed_checks⟩
      let st := { st with
        diagnostic_result := some dres
        logbook := stampL env st.logbook }
      if v.diagnostic_delta ≤ 0 then
        let st := { st with
          aborted := true
          reason_codes := st.reason_codes ++
            ["validation_failed/diagnostic_no_improvement"] }
        some ({ st with trace := st.trace ++
          [mkRec flips sf sb true (some v.diagnostic_progress)
            (some v.diagnostic_delta) v.counter (some .diag)] }, false)
      else
        let st := { st with
          previous_progress := some v.diagnostic_progress
          progress_history := st.progress_history ++ [v.diagnostic_progress]
          progress_deltas := st.progress_deltas ++ [v.diagnostic_delta]
          consecutive_no_progress := 0 }
        some ({ st with trace := st.trace ++
          [mkRec flips sf sb true (some v.diagnostic_progress)
            (some v.diagnostic_delta) 0 none] }, true)
    else
      some ({ st with trace := st.trace ++
        [mkRec flips sf sb false none none v.counter none] }, true)

/-- One iteration of the `for iteration in range(1, max_iterations + 1)`
loop. -/
def runIteration (checks : List RunCheck) (checklist_items : List J)
    (oracle : Oracle) (env : Env) (i : ℕ) (st0 : LoopState) :
    Option (LoopState × Bool) :=
  runIterationAux checks checklist_items env i st0 (iterComputed checks oracle i st0)

/-- The iteration loop, `fuel` iterations remaining, next index `i`. -/
def loopGo (checks : List RunCheck) (checklist_items : List J) (oracle : Oracle)
    (env : Env) : ℕ → ℕ → LoopState → Option LoopState
  | 0, _, st => some st
  | fuel + 1, i, st =>
    match runIteration checks checklist_items oracle env i st with
    | none => none
    | some (st', cont) => if cont then loopGo checks checklist_items oracle env fuel (i + 1) st' else some st'

/-- Codes of one entry of run_until_green's `_validate_evidence_objects`
(this copy appends one code per missing field; the final `_dedupe`
collapses them). -/
def evidenceCodesOne (item : J) : List String :=
  match item with
  | J.jo _ =>
    (CompileChecks.EVIDENCE_REQUIRED_FIELDS.filterMap
      (fun k => if (item.get? k).isNone then
        some "schema_violation/evidence_object_missing_required" else none))
    ++ (match pyFloat? (item.getD "confidence" J.null) with
        | none => ["schema_violation/evidence_object_invalid_type"]
        | some c =>
          if c < 0 ∨ 1 < c then ["validation_failed/evidence_confidence_out_of_range"] else [])
    ++ (match item.get? "location" with
        | some v => if v.isDict then [] else ["schema_violation/evidence_object_invalid_type"]
        | none => [])
  | _ => ["schema_violation/evidence_object_invalid_type"]

/-- `_validate_evidence_objects` (run_until_green variant: `_dedupe`,
keeping first-seen order). -/
def validate_evidence_objects (raw : J) : List String :=
  match raw with
  | J.ja xs => pyDedupe (xs.foldl (fun acc item => acc ++ evidenceCodesOne item) [])
  | _ => []

/-- Codes of one entry of run_until_green's `_validate_letta_pointers`. -/
def lettaPointerCodesOne (item : J) : List String :=
  match item with
  | J.jo _ =>
    (CompileChecks.LETTA_POINTER_REQUIRED_FIELDS.filterMap
      (fun k => if (item.get? k).isNone then
        some "schema_violation/letta_pointer_missing_required" else none))
    ++ (match item.getD "provider" J.null with
        | J.null => []
        | v => if v.isStr "letta" then [] else ["schema_violation/letta_pointer_invalid_type"])
    ++ (if pyStrip (pyStr (item.getD "content_hash" (J.js ""))) = "" then
          ["validation_failed/letta_pointer_hash_missing"] else [])
    ++ (match pyFloat? (item.getD "synced_at_unix" J.null) with
        | none => ["schema_violation/letta_pointer_invalid_type"]
        | some t => if t ≤ 0 then ["validation_failed/letta_pointer_stale_sync"] else [])
    ++ (if ((match item.getD "stale" (J.jb false) with | J.jb true => true | _ => false)
          || (match item.getD "is_stale" (J.jb false) with | J.jb true => true | _ => false) : Bool) then
          ["validation_failed/letta_pointer_stale_sync"] else [])
  | _ => ["schema_violation/letta_pointer_invalid_type"]

/-- `_validate_letta_pointers` (run_until_green variant). -/
def validate_letta_pointers (raw : J) : List String :=
  match raw with
  | J.null => []
  | J.ja xs => pyDedupe (xs.foldl (fun acc item => acc ++ lettaPointerCodesOne item) [])
  | _ => ["schema_violation/letta_pointer_invalid_type"]

/-- `_validate_correction_rollout` (run_until_green variant). -/
def validate_correction_rollout (raw : J) : List String :=
  match raw with
  | J.null => []
  | J.jo _ =>
    pyDedupe (
      (["run_id", "task_signature", "attempt_1", "attempt_2"].filterMap
        (fun key =>
          if pyStrip (pyStr (raw.getD key (J.js ""))) = "" then
            some "schema_violation/correction_rollout_missing_required"
          else none))
      ++ (if (raw.get? "attempt_2").isSome ∧
             pyStrip (pyStr (raw.getD "attempt_2" (J.js ""))) = "" then
            ["validation_failed/self_correction_missing_o2"] else [])
      ++ (if ((raw.get? "task_signature").isSome
             && (match raw.get? "task_signature" with
                 | some (J.js _) => false
                 | _ => true) : Bool) then
            ["schema_violation/correction_rollout_mismatched_task_signature"] else []))
  | _ => ["schema_violation/correction_rollout_missing_required"]

/-- Lines 417–422 of run_until_green.py: validator-score sanity codes. -/
def selfCorrectionScoreCodes (correction_rollout : J) : List String :=
  match pyFloat? ((correction_rollout.get? "validator_score_o1").getD J.null),
        pyFloat? ((correction_rollout.get? "validator_score_o2").getD J.null) with
  | some o1, some o2 =>
    if 1 ≤ o1 ∧ o2 < 1 then ["validation_failed/self_correction_regressed"] else []
  | _, _ => ["validation_failed/self_correction_unscored"]

/-- The locals extracted from the contract document at the top of
`run_until_green.main` (lines 188–211); `contract` keeps the raw document
because lines 429 and 437–449 read it again directly. -/
structure RunLocals where
  contract : J
  max_iterations : ℤ
  checks : List RunCheck
  memory_bundle : J
  execution_audit : J
  strict_evidence : Bool
  evidence_objects : J
  correction_rollout : J
  external_context_pointers : List J
  external_context_policy : J
  trust_level : String
  checklist_items : List J
  letta_runtime_enabled : Bool
  letta_agent_id : String
  letta_sync_status : String
  letta_publish_attempted : Bool
  validator_passed : Bool
  governor_approved : Bool

/-- `read_contract` plus the extraction prelude of `main`.  `none` models
the `ValueError` of `read_contract` (non-dict document, missing or empty
or non-list `checks`), a check entry `run_check` could not execute, or a
non-numeric `max_iterations`. -/
def extractLocals (contract : J) : Option RunLocals :=
  match contract with
  | J.jo _ =>
    match contract.getD "checks" (J.ja []) with
    | J.ja rawChecks =>
      if rawChecks.isEmpty then none
      else
        match rawChecks.mapM extractRunCheck, pyInt? (contract.getD "max_iterations" (J.ji 5)) with
        | some checks, some max_iterations =>
          let memory_bundle := if (contract.getD "memory_update_bundle" (J.jo [])).isDict then
              contract.getD "memory_update_bundle" (J.jo []) else J.jo []
          let execution_audit := if (contract.getD "execution_audit" (J.jo [])).isDict then
              contract.getD "execution_audit" (J.jo []) else J.jo []
          let checklist := if (contract.getD "checklist_contract" (J.jo [])).isDict then
              contract.getD "checklist_contract" (J.jo []) else J.jo []
          some
            { contract := contract
              max_iterations := max_iterations
              checks := checks
              memory_bundle := memory_bundle
              execution_audit := execution_audit
              strict_evidence := (contract.getD "strict_evidence_objects" (J.jb false)).truthy
              evidence_objects := contract.getD "evidence_objects"
                (contract.getD "evidence_refs" (J.ja []))
              correction_rollout :=
                match contract.getD "correction_rollout" (J.jo []) with
                | J.null => J.null
                | J.jo kvs => J.jo kvs
                | _ => J.jo []
              external_context_pointers :=
                match contract.getD "external_context_pointers" (J.ja []) with
                | J.ja xs => xs
                | _ => []
              external_context_policy :=
                if (contract.getD "external_context_policy" (J.jo [])).isDict then
                  contract.getD "external_context_policy" (J.jo []) else J.jo []
              trust_level := pyStr (contract.getD "trust_level"
                (execution_audit.getD "trust_level" (J.js "trusted")))
              checklist_items :=
                match checklist.getD "items" (J.ja []) with
                | J.ja xs => xs
                | _ => []
              letta_runtime_enabled := (contract.getD "letta_runtime_enabled" (J.jb false)).truthy
              letta_agent_id := pyStrip (pyStr (contract.getD "letta_agent_id" (J.js "")))
              letta_sync_status :=
                pyLower (pyStrip (pyStr (contract.getD "letta_sync_status" (J.js ""))))
              letta_publish_attempted :=
                (contract.getD "letta_publish_attempted" (J.jb false)).truthy
              validator_passed := (contract.getD "validator_passed" (J.jb false)).truthy
              governor_approved := (contract.getD "governor_approved" (J.jb false)).truthy }
        | _, _ => none
    | _ => none
  | _ => none

/-- The run-variant memory-bundle codes (lines 404–412; gated on the
bundle's truthiness, unlike the compiler's `memory_required`). -/
def memoryBundleCodes (memory_bundle : J) : List String :=
  (if ¬(memory_bundle.getD "evidence_refs" J.null).truthy then
    ["validation_failed/memory_provenance_missing"] else [])
  ++ (if ¬(memory_bundle.getD "commit_message" J.null).truthy then
    ["validation_failed/memory_commit_missing"] else [])
  ++ (if ¬(memory_bundle.getD "worktree_path" J.null).truthy then
    ["validation_failed/worktree_required_for_memory_write"] else [])
  ++ (if (memory_bundle.getD "defrag_run" (J.jb false)).truthy ∧
         ¬(memory_bundle.getD "relocation_pointers" J.null).truthy then
    ["validation_failed/defrag_relocation_missing"] else [])

/-- The `gate_scores` dict of the run summary (weights fixed at
0.5/0.3/0.1/0.1 in the source). -/
structure RunGateScores where
  all_checks_passed : Bool
  checklist_satisfied : Bool
  budget_respected : Bool
  no_progress_policy_respected : Bool
deriving DecidableEq, Repr

/-- The `progress_summary` dict. -/
structure ProgressSummary where
  initial : ℚ
  final : ℚ
  best : ℚ
  net_delta : ℚ
  mean_delta : ℚ
  history : List ℚ
  checklist_flip_count : ℕ
deriving DecidableEq, Repr

/-- The terminal summary printed by `main`, together with the `ok` flag of
its embedded `skill_result`, the process exit status, and the modelled log
trace. -/
structure RunSummary where
  run_id : String
  all_passed : Bool
  aborted : Bool
  iterations : ℕ
  checklist_state : List J
  checklist_deltas : List ChecklistDelta
  strict_fail_item_ids : List String
  strict_early_terminated : Bool
  gate_scores : RunGateScores
  progress_delta : ℚ
  progress_delta_aggregate : ℚ
  progress_trend : String
  progress_summary : ProgressSummary
  reason_codes : List String
  strategy_switch_tag : Option String
  diagnostic_ran : Bool
  diagnostic_result : Option DiagResult
  max_consecutive_no_progress : ℕ
  skill_ok : Bool
  exit_status : ℕ
  trace : List IterRecord
  log_timestamps : List String

/-- The loop-closing codes of lines 397–402: `checks_failed` plus abort or
budget markers when the run did not pass. -/
def loopCloseCodes (L : RunLocals) (st : LoopState) : List String :=
  if ¬st.all_passed then
    ["validation_failed/checks_failed"]
    ++ (if st.aborted then ["validation_failed/fail_closed_abort"] else [])
    ++ (if (st.iterations : ℤ) ≥ L.max_iterations ∧ ¬st.aborted then
          ["validation_failed/max_iterations_reached"] else [])
  else []

/-- The post-loop contract-declaration codes of lines 404–449, appended
after the loop-closing codes. -/
def postLoopCodes (L : RunLocals) (st : LoopState) : List String :=
  loopCloseCodes L st
  ++ (if L.memory_bundle.truthy then memoryBundleCodes L.memory_bundle else [])
  ++ (if L.strict_evidence then validate_evidence_objects L.evidence_objects else [])
  ++ (if L.correction_rollout.truthy then
        validate_correction_rollout L.correction_rollout
        ++ selfCorrectionScoreCodes L.correction_rollout
      else [])
  ++ CompileChecks.lettaMainCodes L.letta_runtime_enabled L.letta_agent_id
       L.letta_sync_status (L.contract.getD "letta_sync_stale" (J.jb false)).truthy
       L.letta_publish_attempted L.validator_passed L.governor_approved
  ++ (if !L.external_context_pointers.isEmpty then
        validate_letta_pointers (J.ja L.external_context_pointers) else [])
  ++ (if (L.external_context_policy.getD "direct_external_writes_forbidden" (J.jb true)).truthy
         ∧ CompileChecks.directExternalWrite L.contract L.memory_bundle then
        ["policy_violation/letta_direct_memory_write_forbidden"] else [])
  ++ CompileChecks.trustCodes L.trust_level L.execution_audit L.contract

/-- The `checklist_satisfied` gate of line 483; `none` models the
exception raised when a leftover checklist entry is not a dict. -/
def checklistSatisfiedGate (st : LoopState) : Option Bool :=
  if st.latest_checklist_state.isEmpty then some true
  else ((st.latest_checklist_state.mapM
    (fun it => match it with
      | J.jo _ => some ((it.getD "status" J.null).isStr "satisfied")
      | _ => none) : Option (List Bool))).map (fun bs => bs.all id)

/-- Lines 397–552 of `main`: close out the reason codes, validate the
auxiliary contract declarations, aggregate the trajectory and build the
summary. -/
def finalize (run_id : String) (L : RunLocals) (st : LoopState) : Option RunSummary :=
  let rcs := st.reason_codes ++ postLoopCodes L st
  let initial := (st.progress_history.head?).getD 0
  let final := (st.progress_history.getLast?).getD 0
  let best := st.progress_history.foldl max ((st.progress_history.head?).getD 0)
  let net_delta := pyRound (final - initial) 6
  let mean_delta := if st.progress_deltas.isEmpty then (0 : ℚ)
    else pyRound (st.progress_deltas.sum / (st.progress_deltas.length : ℚ)) 6
  let checklist_flip_count : ℕ :=
    (st.checklist_deltas.map (fun d => d.flipped_to_satisfied.length)).sum
  let aggregate := pyRound ((7/10) * net_delta
    + (3/10) * (checklist_flip_count : ℚ) / (max 1 (L.checklist_items.length : ℚ))) 6
  let trend := if net_delta > 1/1000 then "up"
    else if net_delta < -(1/1000) then "down" else "flat"
  let reason_codes := pyDedupe rcs
  let all_passed := st.all_passed && reason_codes.isEmpty
  match checklistSatisfiedGate st with
  | none => none
  | some checklist_satisfied =>
    some
      { run_id := run_id
        all_passed := all_passed
        aborted := st.aborted
        iterations := st.iterations
        checklist_state := st.latest_checklist_state
        checklist_deltas := st.checklist_deltas
        strict_fail_item_ids := st.strict_fail_item_ids
        strict_early_terminated := st.strict_early_terminated
        gate_scores :=
          { all_checks_passed := all_passed
            checklist_satisfied := checklist_satisfied
            budget_respected := (st.iterations : ℤ) ≤ L.max_iterations
            no_progress_policy_respected := !(st.diagnostic_ran && !st.aborted) }
        progress_delta := net_delta
        progress_delta_aggregate := aggregate
        progress_trend := trend
        progress_summary :=
          { initial := pyRound initial 6
            final := pyRound final 6
            best := pyRound best 6
            net_delta := net_delta
            mean_delta := mean_delta
            history := st.progress_history.map (fun q => pyRound q 6)
            checklist_flip_count := checklist_flip_count }
        reason_codes := reason_codes
        strategy_switch_tag := st.strategy_switch_tag
        diagnostic_ran := st.diagnostic_ran
        diagnostic_result := st.diagnostic_result
        max_consecutive_no_progress := st.max_consecutive_no_progress
        skill_ok := all_passed
        exit_status := if all_passed then 0 else 1
        trace := st.trace
        log_timestamps := st.logbook.log_timestamps }

/-- `run_until_green.main` as a function of the contract document, the run
id, the timestamp environment and the subprocess oracle. -/
def runMain (contract : J) (run_id : String) (env : Env) (oracle : Oracle) :
    Option RunSummary :=
  match extractLocals contract with
  | none => none
  | some L =>
    match loopGo L.checks L.checklist_items oracle env L.max_iterations.toNat 1
        { latest_checklist_state := L.checklist_items } with
    | none => none
    | some st => finalize run_id L st

/-- Everything one loop iteration guarantees, stated against the single
trace record it appends.  `st` is the state on entry, `st'` on exit,
`cont` whether the `for` loop proceeds to the next iteration. -/
structure StepFacts (st st' : LoopState) (cont : Bool) (i : ℕ)
    (items : List J) (rec : IterRecord) : Prop where
  iter_eq : rec.iteration = i
  iters : st'.iterations = i
  entering_counter_eq : rec.entering_counter = st.consecutive_no_progress
  entering_previous_eq : rec.entering_previous = st.previous_progress
  cont_iff : cont = true ↔ rec.break_kind = none
  strict_iff : rec.break_kind = some .strict ↔ rec.strict_fails ≠ []
  strict_flags : rec.strict_fails ≠ [] →
    st'.strict_early_terminated = true ∧ st'.aborted = true ∧
      "validation_failed/checklist_strict_failed" ∈ st'.reason_codes
  strict_stable : rec.strict_fails = [] →
    st'.strict_early_terminated = st.strict_early_terminated
  passed_iff : rec.break_kind = some .passed ↔
    (rec.strict_fails = [] ∧ rec.iteration_passed = true)
  fired_iff : rec.diagnostic_fired = true ↔
    (rec.strict_fails = [] ∧ rec.iteration_passed = false ∧ 2 ≤ rec.counter_after)
  counter_after_eq : rec.counter_after =
    (if rec.no_progress_step = true then st.consecutive_no_progress + 1 else 0)
  diag_iff : rec.break_kind = some .diag ↔
    (rec.diagnostic_fired = true ∧ ∃ d, rec.diagnostic_delta = some d ∧ d ≤ 0)
  diag_flags : rec.break_kind = some .diag →
    st'.aborted = true ∧ "validation_failed/diagnostic_no_improvement" ∈ st'.reason_codes
  aborted_stable : rec.break_kind ≠ some .strict → rec.break_kind ≠ some .diag →
    st'.aborted = st.aborted
  exit_counter : cont = true → st'.consecutive_no_progress = rec.counter_exit
  exit_prev : cont = true → st'.previous_progress =
    (if rec.diagnostic_fired = true then rec.diagnostic_progress else some rec.progress_score)
  exit_nofired : rec.break_kind = none → rec.diagnostic_fired = false →
    rec.counter_exit = rec.counter_after
  reset_on_diag : rec.diagnostic_fired = true → rec.break_kind = none →
    rec.counter_exit = 0 ∧ (∃ d, rec.diagnostic_delta = some d ∧ 0 < d) ∧
      rec.diagnostic_progress.isSome = true
  passed_flag : rec.break_kind = some .passed → st'.all_passed = true
  deltas_eq : st'.checklist_deltas = st.checklist_deltas ++
    (if items.isEmpty then [] else
      [⟨rec.iteration, rec.flipped_to_satisfied, rec.strict_fails, rec.strict_blocked⟩])

set_option maxHeartbeats 1600000 in
/-- The control-flow core of one iteration satisfies `StepFacts`, given
that `v.counter` is the updated no-progress counter (which `iterComputed`
guarantees definitionally). -/
lemma runIterationAux_spec (checks : List RunCheck) (items : List J)
    (env : Env) (i : ℕ) (st st' : LoopState) (v : IterComputed) (cont : Bool)
    (hcnt : v.counter = if v.no_progress_step = true
      then st.consecutive_no_progress + 1 else 0)
    (h : runIterationAux checks items env i st v = some (st', cont)) :
    ∃ rec : IterRecord, st'.trace = st.trace ++ [rec]
      ∧ StepFacts st st' cont i items rec := by
  unfold runIterationAux at h
  dsimp only at h
  split at h
  · exact absurd h (by simp)
  · rename_i chk heq
    cases chk with
    | none =>
      dsimp only at h
      have hit : items.isEmpty = true := by
        by_contra hni
        rw [if_neg hni] at heq
        cases hb : build_checklist_state st.latest_checklist_state v.phase.pass_map i <;>
          rw [hb] at heq <;> simp at heq
      rw [if_neg (by simp : ¬((!([] : List String).isEmpty) = true))] at h
      split at h <;>
        [skip;
         (split at h <;>
          [(split at h <;> [skip; skip]);
           skip])] <;>
      · simp only [Option.some.injEq, Prod.mk.injEq] at h
        obtain ⟨h1, h2⟩ := h
        subst h1
        subst h2
        exact ⟨_, rfl, by constructor <;> first | rfl | simp_all [List.isEmpty_iff]⟩
    | some acc =>
      dsimp only at h
      have hit : items.isEmpty = false := by
        cases hx : items.isEmpty with
        | true => rw [if_pos hx] at heq; exact absurd heq (by simp)
        | false => rfl
      split at h <;>
        [skip;
         (split at h <;>
          [skip;
           (split at h <;>
            [(split at h <;> [skip; skip]);
             skip])])] <;>
      · simp only [Option.some.injEq, Prod.mk.injEq] at h
        obtain ⟨h1, h2⟩ := h
        subst h1
        subst h2
        exact ⟨_, rfl, by constructor <;> first | rfl | simp_all [List.isEmpty_iff]⟩

/-- One iteration of the loop satisfies `StepFacts` for the record it
appends to the trace. -/
lemma runIteration_spec (checks : List RunCheck) (items : List J) (oracle : Oracle)
    (env : Env) (i : ℕ) (st st' : LoopState) (cont : Bool)
    (h : runIteration checks items oracle env i st = some (st', cont)) :
    ∃ rec : IterRecord, st'.trace = st.trace ++ [rec]
      ∧ StepFacts st st' cont i items rec :=
  runIterationAux_spec checks items env i st st' (iterComputed checks oracle i st) cont
    rfl h

/-- The state-independent facts every logged iteration record satisfies. -/
structure RecFacts (rec : IterRecord) : Prop where
  strict_iff : rec.break_kind = some .strict ↔ rec.strict_fails ≠ []
  passed_iff : rec.break_kind = some .passed ↔
    (rec.strict_fails = [] ∧ rec.iteration_passed = true)
  fired_iff : rec.diagnostic_fired = true ↔
    (rec.strict_fails = [] ∧ rec.iteration_passed = false ∧ 2 ≤ rec.counter_after)
  counter_after_eq : rec.counter_after =
    (if rec.no_progress_step = true then rec.entering_counter + 1 else 0)
  diag_iff : rec.break_kind = some .diag ↔
    (rec.diagnostic_fired = true ∧ ∃ d, rec.diagnostic_delta = some d ∧ d ≤ 0)
  reset_on_diag : rec.diagnostic_fired = true → rec.break_kind = none →
    rec.counter_exit = 0 ∧ (∃ d, rec.diagnostic_delta = some d ∧ 0 < d) ∧
      rec.diagnostic_progress.isSome = true
  exit_nofired : rec.break_kind = none → rec.diagnostic_fired = false →
    rec.counter_exit = rec.counter_after

/-- `StepFacts` restricted to the appended record. -/
lemma StepFacts.toRecFacts {st st' : LoopState} {cont : Bool} {i : ℕ}
    {items : List J} {rec : IterRecord} (f : StepFacts st st' cont i items rec) :
    RecFacts rec where
  strict_iff := f.strict_iff
  passed_iff := f.passed_iff
  fired_iff := f.fired_iff
  counter_after_eq := f.entering_counter_eq ▸ f.counter_after_eq
  diag_iff := f.diag_iff
  reset_on_diag := f.reset_on_diag
  exit_nofired := f.exit_nofired

/-- The link between two consecutive iteration records: the later one
enters with the counter and baseline the earlier one exited with. -/
def chainLink (r r' : IterRecord) : Prop :=
  r'.entering_counter = r.counter_exit
  ∧ r'.entering_previous =
      (if r.diagnostic_fired = true then r.diagnostic_progress else some r.progress_score)

/-- Consecutive records of a trace are chain-linked. -/
def ChainedTrace (tr : List IterRecord) : Prop :=
  ∀ (k : ℕ) (r r' : IterRecord), tr[k]? = some r → tr[k + 1]? = some r' → chainLink r r'

lemma chainedTrace_nil : ChainedTrace [] := by
  intro k r r' hr
  simp at hr

lemma chainedTrace_append (tr : List IterRecord) (r1 : IterRecord)
    (hc : ChainedTrace tr) (hl : ∀ r, tr.getLast? = some r → chainLink r r1) :
    ChainedTrace (tr ++ [r1]) := by
  intro k r r' hr hr'
  rcases lt_or_ge (k + 1) tr.length with hk | hk
  · have hrk : tr[k]? = some r := by
      rw [List.getElem?_append, if_pos (by omega)] at hr
      exact hr
    have hrk' : tr[k + 1]? = some r' := by
      rw [List.getElem?_append, if_pos hk] at hr'
      exact hr'
    exact hc k r r' hrk hrk'
  · have hlen : (tr ++ [r1]).length = tr.length + 1 := by simp
    have hk2 : k + 1 < tr.length + 1 := by
      by_contra hout
      have : (tr ++ [r1])[k + 1]? = none := by
        apply List.getElem?_eq_none
        omega
      rw [this] at hr'
      exact absurd hr' (by simp)
    have hkeq : k + 1 = tr.length := by omega
    have hr1 : r' = r1 := by
      rw [hkeq] at hr'
      rw [List.getElem?_concat_length] at hr'
      exact (Option.some.inj hr').symm
    have hrlast : tr.getLast? = some r := by
      rw [List.getLast?_eq_getElem?]
      have : tr[k]? = some r := by
        rw [List.getElem?_append, if_pos (by omega)] at hr
        exact hr
      rw [show tr.length - 1 = k by omega]
      exact this
    rw [hr1]
    exact hl r hrlast

/-- The canonical entry invariant of the loop at state `st`: every logged
record so far continued the loop, no abort has happened, the counter obeys
its bound, records are chain-linked, and the live counter/baseline agree
with the last record. -/
structure LoopInv (st : LoopState) : Prop where
  all_cont : ∀ r ∈ st.trace, r.break_kind = none
  strict_false : st.strict_early_terminated = false
  aborted_false : st.aborted = false
  counter_le : st.consecutive_no_progress ≤ 1
  entering_le : ∀ r ∈ st.trace, r.entering_counter ≤ 1
  rec_facts : ∀ r ∈ st.trace, RecFacts r
  chained : ChainedTrace st.trace
  last_link : ∀ r, st.trace.getLast? = some r →
    st.consecutive_no_progress = r.counter_exit
    ∧ st.previous_progress =
        (if r.diagnostic_fired = true then r.diagnostic_progress else some r.progress_score)

/-- The conclusions of running the loop from an invariant state to its
final state. -/
structure LoopOut (stF : LoopState) : Prop where
  entering_le : ∀ rec ∈ stF.trace, rec.entering_counter ≤ 1
  rec_facts : ∀ rec ∈ stF.trace, RecFacts rec
  chained : ChainedTrace stF.trace
  break_last : ∀ rec ∈ stF.trace, rec.break_kind ≠ none →
    stF.trace.getLast? = some rec ∧ stF.iterations = rec.iteration
  strict_flags : ∀ rec ∈ stF.trace, rec.break_kind = some .strict →
    stF.strict_early_terminated = true ∧ stF.aborted = true ∧
      "validation_failed/checklist_strict_failed" ∈ stF.reason_codes
  diag_flags : ∀ rec ∈ stF.trace, rec.break_kind = some .diag →
    stF.aborted = true ∧
      "validation_failed/diagnostic_no_improvement" ∈ stF.reason_codes
  no_strict : (∀ rec ∈ stF.trace, rec.break_kind ≠ some .strict) →
    stF.strict_early_terminated = false
  aborted_src : stF.aborted = true →
    ∃ rec ∈ stF.trace, rec.break_kind = some .strict ∨ rec.break_kind = some .diag

/-- Master loop invariant: `loopGo` carries `LoopInv` to `LoopOut`. -/
lemma loopGo_master (checks : List RunCheck) (items : List J) (oracle : Oracle)
    (env : Env) :
    ∀ (fuel i : ℕ) (st stF : LoopState),
      loopGo checks items oracle env fuel i st = some stF →
      LoopInv st → LoopOut stF := by
  intro fuel
  induction fuel with
  | zero =>
    intro i st stF h inv
    simp only [loopGo, Option.some.injEq] at h
    subst h
    refine ⟨inv.entering_le, inv.rec_facts, inv.chained, ?_, ?_, ?_, ?_, ?_⟩
    · intro rec hrec hbk
      exact absurd (inv.all_cont rec hrec) hbk
    · intro rec hrec hbk
      exact absurd (inv.all_cont rec hrec) (by simp [hbk])
    · intro rec hrec hbk
      exact absurd (inv.all_cont rec hrec) (by simp [hbk])
    · intro _
      exact inv.strict_false
    · intro hab
      exact absurd hab (by simp [inv.aborted_false])
  | succ fuel ih =>
    intro i st stF h inv
    rw [loopGo] at h
    cases hstep : runIteration checks items oracle env i st with
    | none => rw [hstep] at h; exact absurd h (by simp)
    | some p =>
      obtain ⟨st2, cont⟩ := p
      rw [hstep] at h
      dsimp only at h
      obtain ⟨r1, htr, facts⟩ := runIteration_spec checks items oracle env i st st2 cont hstep
      have hr1facts := facts.toRecFacts
      have hent : r1.entering_counter ≤ 1 :=
        facts.entering_counter_eq ▸ inv.counter_le
      have hchain2 : ChainedTrace st2.trace := by
        rw [htr]
        refine chainedTrace_append _ _ inv.chained ?_
        intro r hlast
        obtain ⟨hc, hp⟩ := inv.last_link r hlast
        exact ⟨facts.entering_counter_eq.trans hc, facts.entering_previous_eq.trans hp⟩
      cases cont with
      | true =>
        rw [if_pos rfl] at h
        have hbk : r1.break_kind = none := facts.cont_iff.1 rfl
        have hsf : r1.strict_fails = [] := by
          by_contra hne
          exact absurd (facts.strict_iff.2 hne) (by simp [hbk])
        have hnp : r1.iteration_passed = false := by
          by_contra hne
          have : r1.iteration_passed = true := by
            cases hx : r1.iteration_passed
            · exact absurd hx hne
            · rfl
          exact absurd (facts.passed_iff.2 ⟨hsf, this⟩) (by simp [hbk])
        have hcnt2 : st2.consecutive_no_progress ≤ 1 := by
          rw [facts.exit_counter rfl]
          cases hf : r1.diagnostic_fired with
          | true =>
            obtain ⟨hz, -, -⟩ := facts.reset_on_diag hf hbk
            omega
          | false =>
            rw [facts.exit_nofired hbk hf]
            by_contra hgt
            have h2le : 2 ≤ r1.counter_after := by omega
            exact absurd (facts.fired_iff.2 ⟨hsf, hnp, h2le⟩) (by simp [hf])
        have inv2 : LoopInv st2 := by
          refine ⟨?_, ?_, ?_, hcnt2, ?_, ?_, hchain2, ?_⟩
          · intro r hr
            rw [htr] at hr
            rcases List.mem_append.1 hr with hr | hr
            · exact inv.all_cont r hr
            · rw [List.mem_singleton.1 hr]; exact hbk
          · rw [facts.strict_stable hsf]; exact inv.strict_false
          · rw [facts.aborted_stable (by simp [hbk]) (by simp [hbk])]
            exact inv.aborted_false
          · intro r hr
            rw [htr] at hr
            rcases List.mem_append.1 hr with hr | hr
            · exact inv.entering_le r hr
            · rw [List.mem_singleton.1 hr]; exact hent
          · intro r hr
            rw [htr] at hr
            rcases List.mem_append.1 hr with hr | hr
            · exact inv.rec_facts r hr
            · rw [List.mem_singleton.1 hr]; exact hr1facts
          · intro r hlast
            rw [htr, List.getLast?_concat] at hlast
            rw [← Option.some.inj hlast]
            exact ⟨facts.exit_counter rfl, facts.exit_prev rfl⟩
        exact ih (i + 1) st2 stF h inv2
      | false =>
        rw [if_neg (by simp)] at h
        have hstF : st2 = stF := Option.some.inj h
        subst hstF
        have hbk : r1.break_kind ≠ none := fun hn =>
          absurd (facts.cont_iff.2 hn) (by simp)
        have hmem : ∀ {rec : IterRecord}, rec ∈ st2.trace → rec ∈ st.trace ∨ rec = r1 := by
          intro rec hr
          rw [htr] at hr
          rcases List.mem_append.1 hr with hr | hr
          · exact Or.inl hr
          · exact Or.inr (List.mem_singleton.1 hr)
        have hr1mem : r1 ∈ st2.trace := by
          rw [htr]
          exact List.mem_append_right _ (List.mem_singleton.2 rfl)
        have hlast : st2.trace.getLast? = some r1 := by
          rw [htr]
          exact List.getLast?_concat _
        refine ⟨?_, ?_, hchain2, ?_, ?_, ?_, ?_, ?_⟩
        · intro rec hrec
          rcases hmem hrec with hr | rfl
          · exact inv.entering_le rec hr
          · exact hent
        · intro rec hrec
          rcases hmem hrec with hr | rfl
          · exact inv.rec_facts rec hr
          · exact hr1facts
        · intro rec hrec hne
          rcases hmem hrec with hr | rfl
          · exact absurd (inv.all_cont rec hr) hne
          · exact ⟨hlast, facts.iters.trans facts.iter_eq.symm⟩
        · intro rec hrec hstrict
          rcases hmem hrec with hr | rfl
          · exact absurd (inv.all_cont rec hr) (by simp [hstrict])
          · exact facts.strict_flags (facts.strict_iff.1 hstrict)
        · intro rec hrec hdiag
          rcases hmem hrec with hr | rfl
          · exact absurd (inv.all_cont rec hr) (by simp [hdiag])
          · exact facts.diag_flags hdiag
        · intro hnos
          have hsf : r1.strict_fails = [] := by
            by_contra hne
            exact absurd (facts.strict_iff.2 hne) (hnos r1 hr1mem)
          rw [facts.strict_stable hsf]
          exact inv.strict_false
        · intro hab
          refine ⟨r1, hr1mem, ?_⟩
          by_contra hnone
          push_neg at hnone
          rw [facts.aborted_stable hnone.1 hnone.2, inv.aborted_false] at hab
          exact absurd hab (by simp)

end RunUntilGreen

/-! ### Membership lemmas for the dedup helpers -/

lemma mem_pyDedupe_foldl (xs : List String) (acc : List String) (a : String) :
    a ∈ xs.foldl (fun out v => if v ∈ out then out else out ++ [v]) acc ↔
      a ∈ acc ∨ a ∈ xs := by
  induction xs generalizing acc with
  | nil => simp
  | cons x xs ih =>
    by_cases hx : x ∈ acc
    · simp only [List.foldl_cons, if_pos hx, ih, List.mem_cons]
      constructor
      · rintro (h | h)
        · exact Or.inl h
        · exact Or.inr (Or.inr h)
      · rintro (h | rfl | h)
        · exact Or.inl h
        · exact Or.inl hx
        · exact Or.inr h
    · simp only [List.foldl_cons, if_neg hx, ih, List.mem_append, List.mem_singleton,
        List.mem_cons]
      tauto

lemma mem_pyDedupe (a : String) (xs : List String) : a ∈ pyDedupe xs ↔ a ∈ xs := by
  unfold pyDedupe
  simpa using mem_pyDedupe_foldl xs [] a

lemma pyDedupe_eq_nil_iff (xs : List String) : pyDedupe xs = [] ↔ xs = [] := by
  constructor
  · intro h
    by_contra hne
    obtain ⟨y, hy⟩ := List.exists_mem_of_ne_nil xs hne
    have : y ∈ pyDedupe xs := (mem_pyDedupe y xs).2 hy
    simp [h] at this
  · rintro rfl
    rfl

lemma mem_insertSorted (a v : String) (xs : List String) :
    a ∈ insertSorted v xs ↔ a = v ∨ a ∈ xs := by
  induction xs with
  | nil => simp [insertSorted]
  | cons x xs ih =>
    unfold insertSorted
    split
    · simp
    · simp only [List.mem_cons, ih]
      tauto

lemma mem_sortStrings (a : String) (xs : List String) :
    a ∈ sortStrings xs ↔ a ∈ xs := by
  induction xs with
  | nil => simp [sortStrings]
  | cons x xs ih =>
    simp only [sortStrings, List.foldr_cons] at *
    rw [mem_insertSorted, ih, List.mem_cons]

lemma mem_sortedSet (a : String) (xs : List String) : a ∈ sortedSet xs ↔ a ∈ xs := by
  unfold sortedSet
  rw [mem_sortStrings, mem_pyDedupe]

namespace CompileChecks

/-! ### Completeness of the `_checklist_cycle` depth-first search -/

/-- `b` is a key of the dependency graph. -/
def isKey (graph : List (String × List String)) (b : String) : Bool :=
  graph.any (fun p => p.1 == b)

/-- The edge relation the DFS explores: `a`'s adjacency list contains `b`,
and `b` is itself a graph key (`if dep in graph` at line 62). -/
def graphEdge (graph : List (String × List String)) (a b : String) : Prop :=
  ∃ deps, assocGet? graph a = some deps ∧ b ∈ deps ∧ isKey graph b = true

/-- The `depends_on` relation of a normalised item list, restricted to
targets present in the item set — the relation the acyclicity claim is
about. -/
def itemsEdge (items : List ChecklistItem) (a b : String) : Prop :=
  ∃ item ∈ items, item.item_id = a ∧ b ∈ item.depends_on
    ∧ ∃ item' ∈ items, item'.item_id = b

instance (items : List ChecklistItem) (a b : String) :
    Decidable (itemsEdge items a b) := by
  unfold itemsEdge
  infer_instance

/-- No cycle is reachable from `v`. -/
def Safe (graph : List (String × List String)) (v : String) : Prop :=
  ¬∃ w, Relation.ReflTransGen (graphEdge graph) v w
    ∧ Relation.TransGen (graphEdge graph) w w

/-- A node all of whose successors are safe is safe. -/
lemma safe_of_succs (graph : List (String × List String)) (v : String)
    (h : ∀ b, graphEdge graph v b → Safe graph b) : Safe graph v := by
  rintro ⟨w, hreach, hcyc⟩
  rcases Relation.ReflTransGen.cases_head hreach with rfl | ⟨c, hvc, hcw⟩
  · obtain ⟨c, hvc, hcv⟩ := Relation.TransGen.head'_iff.1 hcyc
    exact h c hvc ⟨v, hcv, hcyc⟩
  · exact h c hvc ⟨w, hcw, hcyc⟩

/-- The visited-set safety invariant of the DFS: nodes marked visited but
not on the active stack cannot reach a cycle. -/
def VisitedSafe (graph : List (String × List String))
    (visited stack : List String) : Prop :=
  ∀ v ∈ visited, v ∉ stack → Safe graph v

/-- What a `False` return of `dfs` guarantees. -/
def DfsGoSpec (graph : List (String × List String)) (fuel : ℕ) : Prop :=
  ∀ (node : String) (visited stack visited' : List String),
    dfsGo graph fuel node visited stack = (false, visited') →
    VisitedSafe graph visited stack →
    visited ⊆ visited' ∧ node ∈ visited' ∧ VisitedSafe graph visited' stack

/-- What a `False`-propagating pass over an adjacency list guarantees. -/
def DfsDepsSpec (graph : List (String × List String)) (fuel : ℕ) : Prop :=
  ∀ (deps : List String) (visited stack visited' : List String),
    dfsDeps graph (dfsGo graph fuel) deps visited stack = (false, visited') →
    VisitedSafe graph visited stack →
    visited ⊆ visited' ∧ VisitedSafe graph visited' stack
    ∧ ∀ dep ∈ deps, isKey graph dep = true → dep ∈ visited' ∧ dep ∉ stack

/-- The DFS invariant, by induction on the fuel: a `False` return marks the
node visited and keeps every off-stack visited node safe. -/
lemma dfs_safe (graph : List (String × List String)) :
    ∀ fuel : ℕ, DfsGoSpec graph fuel ∧ DfsDepsSpec graph fuel := by
  intro fuel
  induction fuel with
  | zero =>
    have hG : DfsGoSpec graph 0 := by
      intro node visited stack visited' hrun _
      simp [dfsGo] at hrun
    refine ⟨hG, ?_⟩
    intro deps
    induction deps with
    | nil =>
      intro visited stack visited' hrun hsafe
      simp only [dfsDeps, Prod.mk.injEq, true_and] at hrun
      subst hrun
      exact ⟨List.Subset.refl _, hsafe, by simp⟩
    | cons dep rest ihd =>
      intro visited stack visited' hrun hsafe
      by_cases hk : graph.any (fun p => p.1 == dep) = true
      · rw [dfsDeps, if_pos hk] at hrun
        simp [dfsGo] at hrun
      · rw [dfsDeps, if_neg hk] at hrun
        obtain ⟨hsub, hsafe', hdeps⟩ := ihd visited stack visited' hrun hsafe
        refine ⟨hsub, hsafe', ?_⟩
        intro d hd hkey
        rcases List.mem_cons.1 hd with rfl | hd'
        · exact absurd hkey hk
        · exact hdeps d hd' hkey
  | succ n ih =>
    have hG : DfsGoSpec graph (n + 1) := by
      intro node visited stack visited' hrun hsafe
      rw [dfsGo] at hrun
      by_cases hstk : node ∈ stack
      · rw [if_pos hstk] at hrun
        simp at hrun
      · by_cases hvis : node ∈ visited
        · rw [if_neg hstk, if_pos hvis] at hrun
          obtain ⟨-, rfl⟩ := Prod.mk.injEq .. ▸ hrun
          exact ⟨List.Subset.refl _, hvis, hsafe⟩
        · rw [if_neg hstk, if_neg hvis] at hrun
          have hsafe₁ : VisitedSafe graph (node :: visited) (node :: stack) := by
            intro v hv hvs
            rcases List.mem_cons.1 hv with rfl | hv'
            · exact absurd (List.mem_cons_self _ _) hvs
            · exact hsafe v hv' (fun h => hvs (List.mem_cons_of_mem _ h))
          obtain ⟨hsub, hsafe', hdeps⟩ :=
            ih.2 _ (node :: visited) (node :: stack) visited' hrun hsafe₁
          have hnodeSafe : Safe graph node := by
            apply safe_of_succs
            rintro b ⟨deps, hget, hbdeps, hkey⟩
            have hbd : b ∈ (assocGet? graph node).getD [] := by
              rw [hget]; exact hbdeps
            obtain ⟨hbv, hbs⟩ := hdeps b hbd hkey
            exact hsafe' b hbv hbs
          refine ⟨fun v hv => hsub (List.mem_cons_of_mem _ hv),
            hsub (List.mem_cons_self _ _), ?_⟩
          intro v hv hvs
          by_cases hvn : v = node
          · exact hvn ▸ hnodeSafe
          · exact hsafe' v hv (by
              intro h
              rcases List.mem_cons.1 h with h' | h'
              · exact hvn h'
              · exact hvs h')
    refine ⟨hG, ?_⟩
    intro deps
    induction deps with
    | nil =>
      intro visited stack visited' hrun hsafe
      simp only [dfsDeps, Prod.mk.injEq, true_and] at hrun
      subst hrun
      exact ⟨List.Subset.refl _, hsafe, by simp⟩
    | cons dep rest ihd =>
      intro visited stack visited' hrun hsafe
      by_cases hk : graph.any (fun p => p.1 == dep) = true
      · rw [dfsDeps, if_pos hk] at hrun
        rcases hgo : dfsGo graph (n + 1) dep visited stack with ⟨b, v₁⟩
        rw [hgo] at hrun
        cases b with
        | true => simp at hrun
        | false =>
          obtain ⟨hsub₁, hdv₁, hsafe₁⟩ := hG dep visited stack v₁ hgo hsafe
          have hdstk : dep ∉ stack := by
            intro hmem
            rw [dfsGo, if_pos hmem] at hgo
            exact absurd (congrArg Prod.fst hgo) (by simp)
          obtain ⟨hsub₂, hsafe₂, hdeps₂⟩ := ihd v₁ stack visited' hrun hsafe₁
          refine ⟨hsub₁.trans hsub₂, hsafe₂, ?_⟩
          intro d hd hkey
          rcases List.mem_cons.1 hd with rfl | hd'
          · exact ⟨hsub₂ hdv₁, hdstk⟩
          · exact hdeps₂ d hd' hkey
      · rw [dfsDeps, if_neg hk] at hrun
        obtain ⟨hsub, hsafe', hdeps⟩ := ihd visited stack visited' hrun hsafe
        refine ⟨hsub, hsafe', ?_⟩
        intro d hd hkey
        rcases List.mem_cons.1 hd with rfl | hd'
        · exact absurd hkey hk
        · exact hdeps d hd' hkey

/-- A `False` run of the root loop makes every root node safe. -/
lemma cycleAny_safe (graph : List (String × List String)) (fuel : ℕ) :
    ∀ (nodes visited : List String),
    cycleAny graph fuel nodes visited = false →
    VisitedSafe graph visited [] →
    ∀ node ∈ nodes, Safe graph node := by
  intro nodes
  induction nodes with
  | nil => intro visited _ _ node hn; exact absurd hn (List.not_mem_nil node)
  | cons node rest ih =>
    intro visited hrun hsafe m hm
    rcases hgo : dfsGo graph fuel node visited [] with ⟨b, v₁⟩
    rw [cycleAny, hgo] at hrun
    cases b with
    | true => exact absurd hrun (by simp)
    | false =>
      obtain ⟨hsub, hnv, hsafe₁⟩ := (dfs_safe graph fuel).1 node visited [] v₁ hgo hsafe
      rcases List.mem_cons.1 hm with rfl | hm'
      · exact hsafe₁ m hnv (List.not_mem_nil m)
      · exact ih v₁ hrun hsafe₁ m hm'

/-- A `some` association lookup means the key occurs in the list. -/
lemma assocGet?_mem_keys {α : Type} (l : List (String × α)) (a : String)
    (x : α) (h : assocGet? l a = some x) : a ∈ l.map (·.1) := by
  unfold assocGet? at h
  rcases hf : l.find? (fun p => p.1 == a) with - | p
  · rw [hf] at h; simp at h
  · have hmem := List.mem_of_find?_eq_some hf
    have heq : p.1 = a := by
      have := List.find?_some hf
      simpa using this
    exact heq ▸ List.mem_map_of_mem (·.1) hmem

/-- Completeness of `_checklist_cycle`: a genuine cycle in the graph edge
relation is always reported. -/
lemma checklist_cycle_complete (items : List ChecklistItem)
    (hcyc : ∃ v, Relation.TransGen (graphEdge (buildGraph items)) v v) :
    checklist_cycle items = true := by
  by_contra h
  have hfalse : checklist_cycle items = false := by
    cases hc : checklist_cycle items
    · rfl
    · exact absurd hc h
  obtain ⟨v, hv⟩ := hcyc
  have hkey : v ∈ (buildGraph items).map (·.1) := by
    obtain ⟨c, hvc, -⟩ := Relation.TransGen.head'_iff.1 hv
    obtain ⟨deps, hget, -, -⟩ := hvc
    exact assocGet?_mem_keys _ _ _ hget
  have hrun : cycleAny (buildGraph items) ((buildGraph items).length + 1)
      ((buildGraph items).map (·.1)) [] = false := hfalse
  have hsafe := cycleAny_safe (buildGraph items) ((buildGraph items).length + 1)
    ((buildGraph items).map (·.1)) [] hrun
    (fun w hw _ => absurd hw (List.not_mem_nil w)) v hkey
  exact hsafe ⟨v, Relation.ReflTransGen.refl, hv⟩

/-- With pairwise-distinct item ids every `assocSet` of the dict
comprehension appends a fresh binding, so the graph is just the item list
reshaped. -/
lemma foldl_assocSet_eq (items : List ChecklistItem) :
    ∀ acc : List (String × List String),
    (items.map (·.item_id)).Nodup →
    (∀ it ∈ items, acc.any (fun p => p.1 == it.item_id) = false) →
    items.foldl (fun g item => assocSet g item.item_id item.depends_on) acc
      = acc ++ items.map (fun it => (it.item_id, it.depends_on)) := by
  induction items with
  | nil => intro acc _ _; simp
  | cons it rest ih =>
    intro acc hnd hfresh
    have hkey : acc.any (fun p => p.1 == it.item_id) = false :=
      hfresh it (List.mem_cons_self _ _)
    have hstep : assocSet acc it.item_id it.depends_on
        = acc ++ [(it.item_id, it.depends_on)] := by
      unfold assocSet
      rw [if_neg (by rw [hkey]; exact Bool.false_ne_true)]
    have hhead : it.item_id ∉ rest.map (·.item_id) := (List.nodup_cons.1 hnd).1
    rw [List.foldl_cons, hstep,
      ih (acc ++ [(it.item_id, it.depends_on)]) (List.nodup_cons.1 hnd).2 ?_]
    · simp
    · intro r hr
      rw [List.any_append]
      have h₁ : acc.any (fun p => p.1 == r.item_id) = false :=
        hfresh r (List.mem_cons_of_mem _ hr)
      have h₂ : it.item_id ≠ r.item_id := by
        intro h
        apply hhead
        rw [h]
        exact List.mem_map_of_mem (·.item_id) hr
      rw [h₁]
      simpa using h₂

/-- `buildGraph` under distinct ids. -/
lemma buildGraph_eq_map (items : List ChecklistItem)
    (hnd : (items.map (·.item_id)).Nodup) :
    buildGraph items = items.map (fun it => (it.item_id, it.depends_on)) := by
  have := foldl_assocSet_eq items [] hnd (fun it _ => rfl)
  simpa [buildGraph] using this

/-- Graph lookup of an item's id under distinct ids returns that item's
dependency list. -/
lemma assocGet?_map_item (items : List ChecklistItem) (item : ChecklistItem) :
    (items.map (·.item_id)).Nodup → item ∈ items →
    assocGet? (items.map (fun it => (it.item_id, it.depends_on))) item.item_id
      = some item.depends_on := by
  induction items with
  | nil => intro _ hmem; cases hmem
  | cons it rest ih =>
    intro hnd hmem
    rcases List.mem_cons.1 hmem with rfl | hmem'
    · simp [assocGet?]
    · have hne : (it.item_id == item.item_id) = false := by
        have hhead := (List.nodup_cons.1 hnd).1
        have : it.item_id ≠ item.item_id := by
          intro h
          apply hhead
          show it.item_id ∈ rest.map (·.item_id)
          rw [h]
          exact List.mem_map_of_mem (·.item_id) hmem'
        simpa using this
      have htail := ih (List.nodup_cons.1 hnd).2 hmem'
      unfold assocGet? at htail ⊢
      rw [List.map_cons, List.find?_cons_of_neg _ (by simpa using hne)]
      exact htail

/-- Under distinct ids the `depends_on` relation of the item list implies
the explored graph edge relation. -/
lemma itemsEdge_imp_graphEdge (items : List ChecklistItem)
    (hnd : (items.map (·.item_id)).Nodup) {a b : String}
    (h : itemsEdge items a b) : graphEdge (buildGraph items) a b := by
  obtain ⟨item, hmem, rfl, hb, item', hmem', rfl⟩ := h
  rw [buildGraph_eq_map items hnd]
  refine ⟨item.depends_on, assocGet?_map_item items item hnd hmem, hb, ?_⟩
  unfold isKey
  rw [List.any_eq_true]
  exact ⟨(item'.item_id, item'.depends_on), List.mem_map_of_mem _ hmem', by simp⟩

/-- A reported cycle puts the dependency-cycle code into the codes that
`normalise_checklist` returns. -/
lemma cycle_code_mem_normalise (raw : J) (run_id : String)
    (hcc : checklist_cycle (normalise_checklist raw run_id).1.items = true) :
    "schema_violation/checklist_dependency_cycle"
      ∈ (normalise_checklist raw run_id).2 := by
  cases raw with
  | jo kvs =>
    rcases hni : normItems (match (J.jo kvs).getD "items" (J.ja []) with
      | J.ja xs => xs
      | _ => []) with ⟨items, codes⟩
    simp only [normalise_checklist, hni] at hcc ⊢
    rw [if_pos hcc]
    exact (mem_sortedSet _ _).2 (by simp)
  | null => simp [normalise_checklist, checklist_cycle, buildGraph, cycleAny] at hcc
  | jb b => simp [normalise_checklist, checklist_cycle, buildGraph, cycleAny] at hcc
  | ji n => simp [normalise_checklist, checklist_cycle, buildGraph, cycleAny] at hcc
  | jf q => simp [normalise_checklist, checklist_cycle, buildGraph, cycleAny] at hcc
  | js s => simp [normalise_checklist, checklist_cycle, buildGraph, cycleAny] at hcc
  | ja xs => simp [normalise_checklist, checklist_cycle, buildGraph, cycleAny] at hcc

/-- The checklist codes flow into the accumulated reason codes of `main`. -/
lemma checklist_code_mem_raw (task : J) (run_id : String) (a : String)
    (h : a ∈ (normalise_checklist (task.getD "checklist_contract" (J.jo []))
      run_id).2) : a ∈ compileRawReasonCodes task run_id := by
  simp only [compileRawReasonCodes, List.mem_append]
  tauto

/-- A non-empty reason-code list forces `main` onto the `_fail_payload`
path, whatever else the task contains. -/
lemma compileMain_fail (task : J) (run_id : String) (env : Env)
    (outcome : CompileOutcome)
    (hrun : compileMain task run_id env = some outcome)
    (hne : compileReasonCodes task run_id ≠ []) :
    outcome = .fail (fail_payload run_id (compileReasonCodes task run_id)
      (normalise_checks (task.getD "acceptance_tests" (J.ja []))).length) := by
  cases task with
  | jo kvs =>
    unfold compileMain at hrun
    dsimp only at hrun
    split at hrun
    · simp only [Option.some.injEq] at hrun
      exact hrun.symm
    · rename_i hcond
      exact absurd hne hcond
  | null => exact absurd hrun (by simp [compileMain])
  | jb b => exact absurd hrun (by simp [compileMain])
  | ji n => exact absurd hrun (by simp [compileMain])
  | jf q => exact absurd hrun (by simp [compileMain])
  | js s => exact absurd hrun (by simp [compileMain])
  | ja xs => exact absurd hrun (by simp [compileMain])

end CompileChecks

namespace RunUntilGreen

/-- A failed run always contributes `validation_failed/checks_failed`. -/
lemma checks_failed_mem_postLoopCodes (L : RunLocals) (st : LoopState)
    (h : st.all_passed = false) :
    "validation_failed/checks_failed" ∈ postLoopCodes L st := by
  unfold postLoopCodes loopCloseCodes
  simp [h]

/-- What `finalize` (lines 397–552) guarantees about the summary relative
to the final loop state: the trace, the termination flags and the iteration
count pass through unchanged; loop reason codes survive deduplication; and
success, the empty reason-code list and exit status 0 coincide. -/
lemma finalize_facts (run_id : String) (L : RunLocals) (st : LoopState)
    (s : RunSummary) (h : finalize run_id L st = some s) :
    s.trace = st.trace
    ∧ s.strict_early_terminated = st.strict_early_terminated
    ∧ s.aborted = st.aborted
    ∧ s.iterations = st.iterations
    ∧ s.checklist_deltas = st.checklist_deltas
    ∧ (∀ a ∈ st.reason_codes, a ∈ s.reason_codes)
    ∧ (s.all_passed = true ↔ s.reason_codes = [])
    ∧ (s.all_passed = true → st.all_passed = true)
    ∧ (s.exit_status = 0 ↔ s.all_passed = true)
    ∧ s.skill_ok = s.all_passed := by
  unfold finalize at h
  cases hg : checklistSatisfiedGate st with
  | none => rw [hg] at h; exact absurd h (by simp)
  | some checklist_satisfied =>
    rw [hg] at h
    simp only [Option.some.injEq] at h
    subst h
    dsimp only
    refine ⟨rfl, rfl, rfl, rfl, rfl, ?_, ?_, ?_, ?_, rfl⟩
    · intro a ha
      exact (mem_pyDedupe a _).2 (List.mem_append_left _ ha)
    · constructor
      · intro hap
        simp only [Bool.and_eq_true, List.isEmpty_iff] at hap
        exact hap.2
      · intro hrc
        simp only [Bool.and_eq_true, List.isEmpty_iff]
        refine ⟨?_, hrc⟩
        by_contra hfalse
        have hnp : st.all_passed = false := Bool.not_eq_true _ ▸ Bool.of_not_eq_true hfalse
        have hmem : "validation_failed/checks_failed" ∈
            pyDedupe (st.reason_codes ++ postLoopCodes L st) :=
          (mem_pyDedupe _ _).2 (List.mem_append_right _
            (checks_failed_mem_postLoopCodes L st hnp))
        rw [hrc] at hmem
        simp at hmem
    · intro hap
      simp only [Bool.and_eq_true] at hap
      exact hap.1
    · constructor
      · intro h0
        by_contra hfalse
        have hb : (st.all_passed && (pyDedupe (st.reason_codes ++ postLoopCodes L st)).isEmpty)
            = false := Bool.not_eq_true _ ▸ Bool.of_not_eq_true hfalse
        rw [if_neg (by simp [hb])] at h0
        exact absurd h0 (by decide)
      · intro hap
        rw [if_pos hap]

/-- Unpack a completed `runMain` into its three stages. -/
lemma runMain_cases (contract : J) (run_id : String) (env : Env) (oracle : Oracle)
    (s : RunSummary) (h : runMain contract run_id env oracle = some s) :
    ∃ (L : RunLocals) (stF : LoopState),
      extractLocals contract = some L
      ∧ loopGo L.checks L.checklist_items oracle env L.max_iterations.toNat 1
          { latest_checklist_state := L.checklist_items } = some stF
      ∧ finalize run_id L stF = some s := by
  unfold runMain at h
  cases hL : extractLocals contract with
  | none => rw [hL] at h; exact absurd h (by simp)
  | some L =>
    rw [hL] at h
    dsimp only at h
    cases hloop : loopGo L.checks L.checklist_items oracle env
        L.max_iterations.toNat 1 { latest_checklist_state := L.checklist_items } with
    | none => rw [hloop] at h; exact absurd h (by simp)
    | some stF =>
      rw [hloop] at h
      exact ⟨L, stF, rfl, hloop, h⟩

/-- The initial loop state satisfies the loop invariant. -/
lemma loopInv_init (items : List J) :
    LoopInv { latest_checklist_state := items } := by
  refine ⟨?_, rfl, rfl, by simp, ?_, ?_, chainedTrace_nil, ?_⟩
  · intro r hr; simp at hr
  · intro r hr; simp at hr
  · intro r hr; simp at hr
  · intro r hr; simp at hr

end RunUntilGreen

open RunUntilGreen in
/-- C2: strict precedence.  If the checklist rebuild of some logged
iteration reports a strict item as `unsatisfied` (`strict_fails ≠ []`),
the loop terminates at that very iteration — that record closes the trace
and supplies the final iteration count — with
`strict_early_terminated = true`, `aborted = true`, and
`validation_failed/checklist_strict_failed` among the reason codes,
however much `max_iterations` budget remains. -/
theorem c2_strict_precedence (contract : J) (run_id : String) (env : Env)
    (oracle : Oracle) (s : RunSummary) (rec : IterRecord)
    (h : runMain contract run_id env oracle = some s)
    (hrec : rec ∈ s.trace) (hsf : rec.strict_fails ≠ []) :
    s.iterations = rec.iteration
    ∧ s.trace.getLast? = some rec
    ∧ s.strict_early_terminated = true
    ∧ s.aborted = true
    ∧ "validation_failed/checklist_strict_failed" ∈ s.reason_codes := by
  obtain ⟨L, stF, hL, hloop, hfin⟩ := runMain_cases contract run_id env oracle s h
  obtain ⟨htrace, hset, hab, hiters, -, hmem, -, -, -, -⟩ :=
    finalize_facts run_id L stF s hfin
  have out := loopGo_master L.checks L.checklist_items oracle env
    L.max_iterations.toNat 1 _ stF hloop (loopInv_init L.checklist_items)
  rw [htrace] at hrec
  have rf := out.rec_facts rec hrec
  have hstrict : rec.break_kind = some .strict := rf.strict_iff.2 hsf
  obtain ⟨hlast, hit⟩ := out.break_last rec hrec (by simp [hstrict])
  obtain ⟨h1, h2, h3⟩ := out.strict_flags rec hrec hstrict
  refine ⟨hiters.trans hit, ?_, hset.trans h1, hab.trans h2, hmem _ h3⟩
  rw [htrace]
  exact hlast

open RunUntilGreen in
/-- C10 (implicit): a strict item whose status is merely `blocked` never
terminates the loop.  If no logged iteration reports a strict item as
`unsatisfied`, then `strict_early_terminated` is false, no iteration broke
on the strict branch, every loop exit was all-checks-passed, a diagnostic
abort (which contributes its reason code), or budget exhaustion (no break
at all), and any abort must carry the diagnostic reason code. -/
theorem c10_strict_blocked_never_aborts (contract : J) (run_id : String)
    (env : Env) (oracle : Oracle) (s : RunSummary)
    (h : runMain contract run_id env oracle = some s)
    (hall : ∀ rec ∈ s.trace, rec.strict_fails = []) :
    s.strict_early_terminated = false
    ∧ (∀ rec ∈ s.trace, rec.break_kind ≠ some .strict)
    ∧ (s.aborted = true →
        "validation_failed/diagnostic_no_improvement" ∈ s.reason_codes)
    ∧ (∀ rec ∈ s.trace, rec.break_kind = some .passed
        ∨ rec.break_kind = some .diag ∨ rec.break_kind = none) := by
  obtain ⟨L, stF, hL, hloop, hfin⟩ := runMain_cases contract run_id env oracle s h
  obtain ⟨htrace, hset, hab, -, -, hmem, -, -, -, -⟩ :=
    finalize_facts run_id L stF s hfin
  have out := loopGo_master L.checks L.checklist_items oracle env
    L.max_iterations.toNat 1 _ stF hloop (loopInv_init L.checklist_items)
  rw [htrace] at hall
  have hnos : ∀ rec ∈ stF.trace, rec.break_kind ≠ some .strict := by
    intro rec hrec hbk
    exact absurd ((out.rec_facts rec hrec).strict_iff.1 hbk) (by simp [hall rec hrec])
  refine ⟨hset.trans (out.no_strict hnos), ?_, ?_, ?_⟩
  · intro rec hrec
    rw [htrace] at hrec
    exact hnos rec hrec
  · intro habT
    obtain ⟨rec, hrec, hbk⟩ := out.aborted_src (hab.symm.trans habT ▸ rfl)
    rcases hbk with hbk | hbk
    · exact absurd hbk (hnos rec hrec)
    · exact hmem _ (out.diag_flags rec hrec hbk).2
  · intro rec hrec
    rw [htrace] at hrec
    cases hbk : rec.break_kind with
    | none => exact Or.inr (Or.inr rfl)
    | some k =>
      cases k with
      | strict => exact absurd hbk (hnos rec hrec)
      | passed => exact Or.inl rfl
      | diag => exact Or.inr (Or.inl rfl)

open RunUntilGreen in
/-- C5 (amended): the diagnostic branch of an iteration executes exactly
when the no-progress counter reaches 2 on that iteration *and* the
iteration did not already terminate the loop (no strict item unsatisfied,
not all checks passed).  When it executes: a non-positive diagnostic delta
aborts the run — that record closes the trace and
`validation_failed/diagnostic_no_improvement` is reported — while a
positive delta resets the counter to 0 and the next iteration's baseline
is the diagnostic score (the trace is chain-linked). -/
theorem c5_stagnation_trigger_amended (contract : J) (run_id : String)
    (env : Env) (oracle : Oracle) (s : RunSummary)
    (h : runMain contract run_id env oracle = some s) :
    (∀ rec ∈ s.trace,
      (rec.diagnostic_fired = true ↔
        (rec.counter_after = 2 ∧ rec.strict_fails = [] ∧ rec.iteration_passed = false)))
    ∧ (∀ rec ∈ s.trace, rec.diagnostic_fired = true →
        ∃ d, rec.diagnostic_delta = some d
          ∧ (rec.break_kind = some .diag ↔ d ≤ 0)
          ∧ (rec.break_kind = none → rec.counter_exit = 0 ∧ 0 < d))
    ∧ (∀ rec ∈ s.trace, rec.break_kind = some .diag →
        s.aborted = true
        ∧ "validation_failed/diagnostic_no_improvement" ∈ s.reason_codes
        ∧ s.trace.getLast? = some rec)
    ∧ ChainedTrace s.trace := by
  obtain ⟨L, stF, hL, hloop, hfin⟩ := runMain_cases contract run_id env oracle s h
  obtain ⟨htrace, -, hab, -, -, hmem, -, -, -, -⟩ :=
    finalize_facts run_id L stF s hfin
  have out := loopGo_master L.checks L.checklist_items oracle env
    L.max_iterations.toNat 1 _ stF hloop (loopInv_init L.checklist_items)
  refine ⟨?_, ?_, ?_, ?_⟩
  · intro rec hrec
    rw [htrace] at hrec
    have rf := out.rec_facts rec hrec
    have hle : rec.counter_after ≤ 2 := by
      have := out.entering_le rec hrec
      rw [rf.counter_after_eq]
      split <;> omega
    constructor
    · intro hf
      obtain ⟨h1, h2, h3⟩ := rf.fired_iff.1 hf
      exact ⟨by omega, h1, h2⟩
    · rintro ⟨h1, h2, h3⟩
      exact rf.fired_iff.2 ⟨h2, h3, by omega⟩
  · intro rec hrec hf
    rw [htrace] at hrec
    have rf := out.rec_facts rec hrec
    cases hbk : rec.break_kind with
    | none =>
      obtain ⟨hz, ⟨d, hd, hpos⟩, -⟩ := rf.reset_on_diag hf hbk
      refine ⟨d, hd, ?_, fun _ => ⟨hz, hpos⟩⟩
      constructor
      · intro hcontra; exact absurd hcontra (by simp [hbk])
      · intro hle; exact absurd hle (not_le.2 hpos)
    | some k =>
      cases k with
      | strict =>
        have := rf.strict_iff.1 hbk
        obtain ⟨h1, -, -⟩ := rf.fired_iff.1 hf
        exact absurd h1 this
      | passed =>
        obtain ⟨-, h2, -⟩ := rf.fired_iff.1 hf
        obtain ⟨-, h4⟩ := rf.passed_iff.1 hbk
        rw [h2] at h4
        exact absurd h4 (by simp)
      | diag =>
        obtain ⟨-, d, hd, hle⟩ := rf.diag_iff.1 hbk
        refine ⟨d, hd, ⟨fun _ => hle, fun _ => rfl⟩, ?_⟩
        intro hcontra
        exact absurd hcontra (by simp [hbk])
  · intro rec hrec hbk
    rw [htrace] at hrec
    obtain ⟨h1, h2⟩ := out.diag_flags rec hrec hbk
    obtain ⟨hlast, -⟩ := out.break_last rec hrec (by simp [hbk])
    refine ⟨hab.trans h1, hmem _ h2, ?_⟩
    rw [htrace]
    exact hlast
  · rw [htrace]
    exact out.chained

/-! ### Association-list lemmas for the checklist status rule -/

lemma assocGet?_cons {α : Type} (p : String × α) (σ : List (String × α))
    (k : String) :
    assocGet? (p :: σ) k = if p.1 == k then some p.2 else assocGet? σ k := by
  unfold assocGet?
  cases hp : (p.1 == k) <;> simp [List.find?_cons, hp]

lemma assocGet?_eq_none_iff {α : Type} (σ : List (String × α)) (k : String) :
    assocGet? σ k = none ↔ k ∉ σ.map (·.1) := by
  induction σ with
  | nil => simp [assocGet?]
  | cons p σ ih =>
    rw [assocGet?_cons]
    by_cases hp : (p.1 == k) = true
    · have hpk : p.1 = k := by simpa using hp
      rw [if_pos hp]
      constructor
      · intro h
        exact absurd h (Option.some_ne_none _)
      · intro h
        refine absurd ?_ h
        rw [List.map_cons, ← hpk]
        exact List.mem_cons_self _ _
    · have hne : p.1 ≠ k := by simpa using hp
      rw [if_neg (by simpa using hne), ih]
      simp only [List.map_cons, List.mem_cons, not_or]
      constructor
      · intro h
        exact ⟨fun he => hne he.symm, h⟩
      · intro h
        exact h.2

lemma assocGet?_append_left {α : Type} (σ τ : List (String × α)) (k : String)
    (h : k ∈ σ.map (·.1)) : assocGet? (σ ++ τ) k = assocGet? σ k := by
  induction σ with
  | nil => simp at h
  | cons p σ ih =>
    rw [List.cons_append, assocGet?_cons, assocGet?_cons]
    by_cases hp : (p.1 == k) = true
    · rw [if_pos hp, if_pos hp]
    · rw [if_neg hp, if_neg hp]
      have hk : k ∈ σ.map (·.1) := by
        rw [List.map_cons, List.mem_cons] at h
        rcases h with h' | h'
        · exact absurd h'.symm (by simpa using hp)
        · exact h'
      exact ih hk

lemma assocGet?_append_right {α : Type} (σ τ : List (String × α)) (k : String)
    (h : k ∉ σ.map (·.1)) : assocGet? (σ ++ τ) k = assocGet? τ k := by
  induction σ with
  | nil => rfl
  | cons p σ ih =>
    have hp : (p.1 == k) = false := by
      have : p.1 ≠ k := fun he => h (by simp [he.symm])
      simpa using this
    have hk : k ∉ σ.map (·.1) := fun hk => h (by simp [hk])
    rw [List.cons_append, assocGet?_cons, if_neg (by simp [hp])]
    exact ih hk

lemma assocSet_fresh {α : Type} (σ : List (String × α)) (k : String) (v : α)
    (h : k ∉ σ.map (·.1)) : assocSet σ k v = σ ++ [(k, v)] := by
  unfold assocSet
  rw [if_neg]
  intro hc
  obtain ⟨p, hp, hpk⟩ := List.any_eq_true.1 hc
  exact h (List.mem_map.2 ⟨p, hp, by simpa using hpk⟩)

namespace RunUntilGreen

/-! ### The checklist status rule (C6) -/

/-- The `item_id` key as `_build_checklist_state` reads it. -/
def itemIdOf (item : J) : String := pyStr (item.getD "item_id" (J.js ""))

/-- The `pass_when_check` key as `_build_checklist_state` reads it. -/
def passWhenOf (item : J) : String :=
  pyStr (item.getD "pass_when_check" (J.js (itemIdOf item)))

/-- The status rule of lines 95–103, as a function of a status assignment
`σ` for the dependencies: `blocked` if some dependency's status in `σ` is
not `satisfied` (including dependencies absent from `σ`), else `satisfied`
iff the referenced check passed, else `unsatisfied`. -/
def ruleStatus (check_pass_map : List (String × Bool))
    (σ : List (String × String)) (deps : List String)
    (pass_when : String) : String :=
  if !(deps.filter (fun dep => assocGet? σ dep ≠ some "satisfied")).isEmpty
  then "blocked"
  else if (assocGet? check_pass_map pass_when).getD false then "satisfied"
  else "unsatisfied"

/-- The status rule only depends on the lookups of the dependencies. -/
lemma ruleStatus_congr (cpm : List (String × Bool))
    (σ₁ σ₂ : List (String × String)) (deps : List String) (pw : String)
    (h : ∀ dep ∈ deps, assocGet? σ₁ dep = assocGet? σ₂ dep) :
    ruleStatus cpm σ₁ deps pw = ruleStatus cpm σ₂ deps pw := by
  unfold ruleStatus
  rw [List.filter_congr (fun dep hdep => by rw [h dep hdep])]

/-- What a successful `buildOne` step does to `state_map` and `flips`:
the new status is the rule evaluated on the map built so far. -/
lemma buildOne_spec (cpm : List (String × Bool)) (iter : ℕ)
    (acc₀ : BuildAcc) (item : J) (acc₁ : BuildAcc)
    (hb : buildOne cpm iter acc₀ item = some acc₁) :
    ∃ deps, jStrIter (item.getD "depends_on" (J.ja [])) = some deps
      ∧ acc₁.state_map = assocSet acc₀.state_map (itemIdOf item)
          (ruleStatus cpm acc₀.state_map deps (passWhenOf item))
      ∧ (acc₁.flips = acc₀.flips
         ∨ (acc₁.flips = acc₀.flips ++ [itemIdOf item]
            ∧ ruleStatus cpm acc₀.state_map deps (passWhenOf item)
                = "satisfied")) := by
  cases item with
  | jo kvs =>
    rcases hd : jStrIter ((J.jo kvs).getD "depends_on" (J.ja [])) with - | deps
    · unfold buildOne at hb
      rw [hd] at hb
      exact absurd hb (by simp)
    · unfold buildOne at hb
      rw [hd] at hb
      dsimp only at hb
      simp only [Option.some.injEq] at hb
      subst hb
      refine ⟨deps, rfl, rfl, ?_⟩
      dsimp only
      split
      · refine Or.inl ?_
        rw [if_neg (by rintro ⟨h, -⟩; exact absurd h (by decide))]
      · rename_i hC₁
        split
        · rename_i hC₂
          split
          · refine Or.inr ⟨rfl, ?_⟩
            unfold ruleStatus
            have hC₂' : (assocGet? cpm (passWhenOf (J.jo kvs))).getD false
                = true := hC₂
            rw [if_neg hC₁, if_pos hC₂']
          · exact Or.inl rfl
        · refine Or.inl ?_
          rw [if_neg (by rintro ⟨h, -⟩; exact absurd h (by decide))]
  | null => exact absurd hb (by simp [buildOne])
  | jb b => exact absurd hb (by simp [buildOne])
  | ji n => exact absurd hb (by simp [buildOne])
  | jf q => exact absurd hb (by simp [buildOne])
  | js s => exact absurd hb (by simp [buildOne])
  | ja xs => exact absurd hb (by simp [buildOne])

/-- Dependencies-before-dependents along the item list: every dependency
that is the id of *some* item (`finalKeys`) is the id of an already
processed one (`done`). -/
def DepsOk (finalKeys : List String) : List String → List J → Prop
  | _, [] => True
  | done, item :: rest =>
    (∀ deps, jStrIter (item.getD "depends_on" (J.ja [])) = some deps →
      ∀ dep ∈ deps, dep ∈ finalKeys → dep ∈ done)
    ∧ DepsOk finalKeys (done ++ [itemIdOf item]) rest

/-- The fold invariant of `_build_checklist_state`: under pairwise-distinct
ids and a dependencies-first order, the final `state_map` lists the ids in
item order, keeps the prefix lookups stable, satisfies the status rule read
against the *final* map, and only ever flips items whose final status is
`satisfied`. -/
lemma buildFold_spec (cpm : List (String × Bool)) (iter : ℕ) :
    ∀ (items : List J) (acc₀ acc : BuildAcc),
    items.foldlM (buildOne cpm iter) acc₀ = some acc →
    (items.map itemIdOf).Nodup →
    (∀ item ∈ items, itemIdOf item ∉ acc₀.state_map.map (·.1)) →
    DepsOk (acc₀.state_map.map (·.1) ++ items.map itemIdOf)
      (acc₀.state_map.map (·.1)) items →
    acc.state_map.map (·.1) = acc₀.state_map.map (·.1) ++ items.map itemIdOf
    ∧ (∀ k, k ∈ acc₀.state_map.map (·.1) →
        assocGet? acc.state_map k = assocGet? acc₀.state_map k)
    ∧ (∀ item ∈ items, ∀ deps,
        jStrIter (item.getD "depends_on" (J.ja [])) = some deps →
        assocGet? acc.state_map (itemIdOf item)
          = some (ruleStatus cpm acc.state_map deps (passWhenOf item)))
    ∧ (∀ x, x ∈ acc.flips →
        x ∈ acc₀.flips ∨ assocGet? acc.state_map x = some "satisfied")
    ∧ (∀ item ∈ items, ∃ deps,
        jStrIter (item.getD "depends_on" (J.ja [])) = some deps) := by
  intro items
  induction items with
  | nil =>
    intro acc₀ acc hrun _ _ _
    simp only [List.foldlM] at hrun
    obtain rfl : acc₀ = acc := by simpa using hrun
    refine ⟨by simp, fun k _ => rfl, by simp, fun x hx => Or.inl hx, by simp⟩
  | cons item rest ih =>
    intro acc₀ acc hrun hnd hfresh hde
    rw [List.foldlM_cons] at hrun
    rcases hb : buildOne cpm iter acc₀ item with - | acc₁
    · rw [hb] at hrun
      exact absurd hrun (by simp)
    · rw [hb] at hrun
      replace hrun : rest.foldlM (buildOne cpm iter) acc₁ = some acc := hrun
      obtain ⟨deps, hd, hsm, hfl⟩ := buildOne_spec cpm iter acc₀ item acc₁ hb
      have hid : itemIdOf item ∉ acc₀.state_map.map (·.1) :=
        hfresh item (List.mem_cons_self _ _)
      have hsm' : acc₁.state_map = acc₀.state_map
          ++ [(itemIdOf item, ruleStatus cpm acc₀.state_map deps (passWhenOf item))] := by
        rw [hsm, assocSet_fresh _ _ _ hid]
      have keys₁ : acc₁.state_map.map (·.1)
          = acc₀.state_map.map (·.1) ++ [itemIdOf item] := by
        rw [hsm']
        simp
      have hndc : (itemIdOf item ∉ rest.map itemIdOf)
          ∧ (rest.map itemIdOf).Nodup := by
        have := hnd
        rw [List.map_cons, List.nodup_cons] at this
        exact this
      have fresh₁ : ∀ r ∈ rest, itemIdOf r ∉ acc₁.state_map.map (·.1) := by
        intro r hr
        rw [keys₁]
        intro hmem
        rcases List.mem_append.1 hmem with h' | h'
        · exact hfresh r (List.mem_cons_of_mem _ hr) h'
        · have : itemIdOf r = itemIdOf item := by simpa using h'
          exact hndc.1 (this ▸ List.mem_map_of_mem itemIdOf hr)
      have hde' : DepsOk (acc₁.state_map.map (·.1) ++ rest.map itemIdOf)
          (acc₁.state_map.map (·.1)) rest := by
        rw [keys₁, List.append_assoc]
        exact hde.2
      obtain ⟨a₁, b₁, c₁, d₁, e₁⟩ := ih acc₁ acc hrun hndc.2 fresh₁ hde'
      have hstab : ∀ k, k ∈ acc₀.state_map.map (·.1) →
          assocGet? acc.state_map k = assocGet? acc₀.state_map k := by
        intro k hk
        have hk₁ : k ∈ acc₁.state_map.map (·.1) := by
          rw [keys₁]
          exact List.mem_append_left _ hk
        rw [b₁ k hk₁, hsm', assocGet?_append_left _ _ _ hk]
      have hkeysAll : acc.state_map.map (·.1)
          = acc₀.state_map.map (·.1) ++ (item :: rest).map itemIdOf := by
        rw [a₁, keys₁, List.append_assoc]
        simp
      have hlookid : assocGet? acc.state_map (itemIdOf item)
          = some (ruleStatus cpm acc₀.state_map deps (passWhenOf item)) := by
        have hin : itemIdOf item ∈ acc₁.state_map.map (·.1) := by
          rw [keys₁]
          simp
        rw [b₁ _ hin, hsm', assocGet?_append_right _ _ _ hid]
        simp [assocGet?]
      have hdepEq : ∀ dep ∈ deps,
          assocGet? acc.state_map dep = assocGet? acc₀.state_map dep := by
        intro dep hdep
        by_cases h₀ : dep ∈ acc₀.state_map.map (·.1)
        · exact hstab dep h₀
        · by_cases hfin : dep ∈ acc₀.state_map.map (·.1)
              ++ (item :: rest).map itemIdOf
          · exact absurd (hde.1 deps hd dep hdep hfin) h₀
          · rw [(assocGet?_eq_none_iff _ _).2 h₀,
              (assocGet?_eq_none_iff _ _).2 (by rw [hkeysAll]; exact hfin)]
      have hruleEq : ruleStatus cpm acc.state_map deps (passWhenOf item)
          = ruleStatus cpm acc₀.state_map deps (passWhenOf item) :=
        ruleStatus_congr _ _ _ _ _ hdepEq
      refine ⟨hkeysAll, hstab, ?_, ?_, ?_⟩
      · intro it hit deps' hd'
        rcases List.mem_cons.1 hit with rfl | hit'
        · rw [hd] at hd'
          obtain rfl : deps = deps' := by simpa using hd'
          rw [hlookid, hruleEq]
        · exact c₁ it hit' deps' hd'
      · intro x hx
        rcases d₁ x hx with hx₁ | hsat
        · rcases hfl with hfe | ⟨hfe, hst⟩
          · exact Or.inl (hfe ▸ hx₁)
          · rw [hfe] at hx₁
            rcases List.mem_append.1 hx₁ with h' | h'
            · exact Or.inl h'
            · have : x = itemIdOf item := by simpa using h'
              subst this
              exact Or.inr (by rw [hlookid, hst])
        · exact Or.inr hsat
      · intro it hit
        rcases List.mem_cons.1 hit with rfl | hit'
        · exact ⟨deps, hd⟩
        · exact e₁ it hit'

/-- Two status assignments with the same key set that both satisfy the
status rule for every item agree everywhere, provided the item list admits
a dependencies-first order: the statuses are the unique fixed point. -/
lemma fixedPoint_agree (cpm : List (String × Bool)) (keys : List String)
    (σ₁ σ₂ : List (String × String))
    (hk₁ : ∀ id, id ∈ σ₁.map (·.1) ↔ id ∈ keys)
    (hk₂ : ∀ id, id ∈ σ₂.map (·.1) ↔ id ∈ keys) :
    ∀ (rest : List J) (done : List String),
    DepsOk keys done rest →
    (∀ d ∈ done, assocGet? σ₁ d = assocGet? σ₂ d) →
    (∀ item ∈ rest, ∀ deps,
        jStrIter (item.getD "depends_on" (J.ja [])) = some deps →
        assocGet? σ₁ (itemIdOf item)
          = some (ruleStatus cpm σ₁ deps (passWhenOf item))) →
    (∀ item ∈ rest, ∀ deps,
        jStrIter (item.getD "depends_on" (J.ja [])) = some deps →
        assocGet? σ₂ (itemIdOf item)
          = some (ruleStatus cpm σ₂ deps (passWhenOf item))) →
    (∀ item ∈ rest, ∃ deps,
        jStrIter (item.getD "depends_on" (J.ja [])) = some deps) →
    ∀ item ∈ rest, assocGet? σ₁ (itemIdOf item) = assocGet? σ₂ (itemIdOf item) := by
  intro rest
  induction rest with
  | nil =>
    intro done _ _ _ _ _ item hit
    exact absurd hit (List.not_mem_nil item)
  | cons item rest ih =>
    intro done hde hagree hr₁ hr₂ hex it hit
    obtain ⟨deps, hd⟩ := hex item (List.mem_cons_self _ _)
    have hdepEq : ∀ dep ∈ deps, assocGet? σ₁ dep = assocGet? σ₂ dep := by
      intro dep hdep
      by_cases hkmem : dep ∈ keys
      · exact hagree dep (hde.1 deps hd dep hdep hkmem)
      · rw [(assocGet?_eq_none_iff _ _).2 (fun h => hkmem ((hk₁ dep).1 h)),
          (assocGet?_eq_none_iff _ _).2 (fun h => hkmem ((hk₂ dep).1 h))]
    have hhead : assocGet? σ₁ (itemIdOf item) = assocGet? σ₂ (itemIdOf item) := by
      rw [hr₁ item (List.mem_cons_self _ _) deps hd,
        hr₂ item (List.mem_cons_self _ _) deps hd,
        ruleStatus_congr cpm σ₁ σ₂ deps _ hdepEq]
    rcases List.mem_cons.1 hit with rfl | hit'
    · exact hhead
    · refine ih (done ++ [itemIdOf item]) hde.2 ?_
        (fun i hi => hr₁ i (List.mem_cons_of_mem _ hi))
        (fun i hi => hr₂ i (List.mem_cons_of_mem _ hi))
        (fun i hi => hex i (List.mem_cons_of_mem _ hi)) it hit'
      intro d hdm
      rcases List.mem_append.1 hdm with h' | h'
      · exact hagree d h'
      · have hdi : d = itemIdOf item := by simpa using h'
        exact hdi ▸ hhead

end RunUntilGreen

/-! ## Concrete inputs used to settle the claims

Inside this section the Batteries `@[irreducible]` markers on the core
rational operations are lowered so that concrete runs evaluate by
`decide`. -/

section ConcreteEvaluation

attribute [local semireducible] Rat.mul Rat.add Rat.sub Rat.inv

open RunUntilGreen in
/-- A fixed timestamp environment for concrete runs. -/
def tsEnv : Env := ⟨fun n => "2026-10-12T00:00:" ++ toString n⟩

/-- A contract check entry named `nm` (command opaque). -/
def mkCheck (nm : String) : J :=
  J.jo [("name", J.js nm), ("command", J.js "cmd")]

/-- A checklist item entry. -/
def mkItem (id q : String) (pass_when : String) (deps : List String := [])
    (strictness : Option String := none) : J :=
  J.jo ([("item_id", J.js id), ("question", J.js q),
        ("pass_when_check", J.js pass_when),
        ("depends_on", J.ja (deps.map J.js))]
    ++ (match strictness with
        | some s => [("strictness", J.js s)]
        | none => []))

open RunUntilGreen in
/-- Oracle: every subprocess call fails. -/
def alwaysFailOracle : Oracle := ⟨fun _ _ _ => (1, "")⟩

open RunUntilGreen in
/-- Oracle: every subprocess call succeeds. -/
def alwaysPassOracle : Oracle := ⟨fun _ _ _ => (0, "")⟩

/-- C1 contract: checks `c1`, `c2`; one normal checklist item `X` tied to
`c1`; two iterations of budget. -/
def c1Contract : J :=
  J.jo [("checks", J.ja [mkCheck "c1", mkCheck "c2"]),
        ("max_iterations", J.ji 2),
        ("checklist_contract", J.jo [("items", J.ja [mkItem "X" "q" "c1"])])]

open RunUntilGreen in
/-- C1 oracle: `c1` (call index 0) passes on iteration 1 and fails
afterwards; `c2` always fails. -/
def c1Oracle : Oracle :=
  ⟨fun i _ idx => if i = 1 ∧ idx = 0 then (0, "") else (1, "")⟩

open RunUntilGreen in
/-- The C1 run summary (the run completes without exception). -/
def c1Run : Option RunSummary := runMain c1Contract "run-c1" tsEnv c1Oracle

/-- C3 contract: exactly one check, `max_iterations = 4`, no checklist. -/
def c3Contract : J :=
  J.jo [("checks", J.ja [mkCheck "c"]), ("max_iterations", J.ji 4)]

open RunUntilGreen in
def c3Run : Option RunSummary := runMain c3Contract "run-c3" tsEnv alwaysFailOracle

/-! ## Claims -/

/-- C1: the monotonic-satisfaction claim is right about the spec's intent
but contradicted by the code: `_build_checklist_state` recomputes every
status from scratch (its `current_status` read is dead), so item `X`,
satisfied on iteration 1 with `satisfied_at_step = 1` (it appears in the
iteration-1 `flipped_to_satisfied` list), is downgraded to `unsatisfied`
with `satisfied_at_step` reset to `None` on iteration 2 when `c1` fails. -/
theorem c1_ratchet_violated_by_code :
    c1Run.map (fun s => s.checklist_deltas.map (fun d => d.flipped_to_satisfied))
      = some [["X"], []]
  ∧ c1Run.map (fun s => s.checklist_state.map (fun it => pyStr (it.getD "status" J.null)))
      = some ["unsatisfied"]
  ∧ c1Run.map (fun s => s.checklist_state.map
      (fun it => ((it.get? "satisfied_at_step").getD J.null).isNull))
      = some [true]
  ∧ c1Run.map RunUntilGreen.RunSummary.iterations = some 2 := by
  refine ⟨by decide, by decide, by decide, by decide⟩

/-- C3 counterexample: with one permanently failing check and
`max_iterations = 4`, the run performs only 3 iterations (the stagnation
diagnostic aborts on iteration 3) and `validation_failed/max_iterations_reached`
is not among the reason codes — the claim asserts 4 iterations and that code. -/
theorem c3_counterexample :
    c3Run.map RunUntilGreen.RunSummary.iterations = some 3
  ∧ c3Run.map (fun s => decide ("validation_failed/max_iterations_reached" ∈ s.reason_codes))
      = some false := by
  refine ⟨by decide, by decide⟩

/-- C8: for every run that completes, the exit status is 0 exactly on
`all_passed`; a failing run carries a non-empty `reason_codes` list and a
successful run an empty one (the two equivalences below combine to both
directions); the embedded skill result's `ok` equals `all_passed`. -/
theorem c8_exit_reason_code_convention (contract : J) (run_id : String) (env : Env)
    (oracle : RunUntilGreen.Oracle) (s : RunUntilGreen.RunSummary)
    (h : RunUntilGreen.runMain contract run_id env oracle = some s) :
    (s.exit_status = 0 ↔ s.all_passed = true)
    ∧ (s.all_passed = true ↔ s.reason_codes = [])
    ∧ s.skill_ok = s.all_passed := by
  unfold RunUntilGreen.runMain at h
  cases hL : RunUntilGreen.extractLocals contract with
  | none => rw [hL] at h; exact absurd h (by simp)
  | some L =>
    rw [hL] at h
    dsimp only at h
    cases hloop : RunUntilGreen.loopGo L.checks L.checklist_items oracle env
        L.max_iterations.toNat 1 { latest_checklist_state := L.checklist_items } with
    | none => rw [hloop] at h; exact absurd h (by simp)
    | some st =>
      rw [hloop] at h
      dsimp only at h
      obtain ⟨-, -, -, -, -, -, h7, -, h9, h10⟩ :=
        RunUntilGreen.finalize_facts run_id L st s h
      exact ⟨h9, h7, h10⟩

/-- Scenario-A contract: one check that always succeeds. -/
def scenarioAContract : J := J.jo [("checks", J.ja [mkCheck "c"])]

open RunUntilGreen in
/-- The scenario-A summary (the run completes). -/
def c8Run : RunSummary :=
  (runMain scenarioAContract "run-c8" tsEnv alwaysPassOracle).get (by decide)

/-- C8 witness: the convention evaluated on the scenario-A run. -/
theorem c8_witness :
    (c8Run.exit_status = 0 ↔ c8Run.all_passed = true)
    ∧ (c8Run.all_passed = true ↔ c8Run.reason_codes = [])
    ∧ c8Run.skill_ok = c8Run.all_passed :=
  c8_exit_reason_code_convention scenarioAContract "run-c8" tsEnv alwaysPassOracle
    c8Run (Option.some_get _).symm

/-- C7: whenever `compile_checks.main` accumulates at least one reason code,
it emits no contract, reports `ok: false`, exits 1, surfaces the full
de-duplicated (sorted-set) reason-code list in every reporting field, and
grants zero gate credit. -/
theorem c7_fail_closed_compilation (task : J) (run_id : String) (env : Env)
    (outcome : CompileChecks.CompileOutcome)
    (hrun : CompileChecks.compileMain task run_id env = some outcome)
    (hne : CompileChecks.compileReasonCodes task run_id ≠ []) :
    ∃ p : CompileChecks.FailPayload,
      outcome = .fail p
      ∧ outcome.emitsContract = false
      ∧ outcome.exitStatus = 1
      ∧ p.ok = false
      ∧ p.reason_codes = CompileChecks.compileReasonCodes task run_id
      ∧ (∀ a, a ∈ p.reason_codes ↔ a ∈ CompileChecks.compileRawReasonCodes task run_id)
      ∧ p.failure_codes = p.reason_codes
      ∧ p.skill_reason_codes = p.reason_codes
      ∧ p.progress_delta = 0 := by
  cases task with
  | jo kvs =>
    unfold CompileChecks.compileMain at hrun
    dsimp only at hrun
    split at hrun
    · simp only [Option.some.injEq] at hrun
      subst hrun
      refine ⟨_, rfl, rfl, rfl, rfl, rfl, ?_, rfl, rfl, rfl⟩
      intro a
      exact mem_sortedSet a _
    · rename_i hcond
      exact absurd hne hcond
  | null => exact absurd hrun (by simp [CompileChecks.compileMain])
  | jb b => exact absurd hrun (by simp [CompileChecks.compileMain])
  | ji n => exact absurd hrun (by simp [CompileChecks.compileMain])
  | jf q => exact absurd hrun (by simp [CompileChecks.compileMain])
  | js s => exact absurd hrun (by simp [CompileChecks.compileMain])
  | ja xs => exact absurd hrun (by simp [CompileChecks.compileMain])

/-- A task with no acceptance tests: compilation must fail closed. -/
def emptyTask : J := J.jo []

open CompileChecks in
/-- The outcome of compiling the empty task (main completes). -/
def c7Outcome : CompileOutcome :=
  (compileMain emptyTask "run-c7" tsEnv).get (by decide)

/-- C7 witness: the fail-closed conclusions at the empty task. -/
theorem c7_witness :
    c7Outcome.emitsContract = false ∧ c7Outcome.exitStatus = 1 := by
  obtain ⟨p, -, hemit, hexit, -⟩ :=
    c7_fail_closed_compilation emptyTask "run-c7" tsEnv c7Outcome
      (Option.some_get _).symm (by decide)
  exact ⟨hemit, hexit⟩

/-- C4 (amended): the acyclicity gate holds for every raw task whose
normalised checklist items carry pairwise-distinct `item_id`s: a cycle in
the `depends_on` relation (restricted to targets present in the item set)
makes `main` fail closed — `schema_violation/checklist_dependency_cycle`
is among the surfaced reason codes, no contract is emitted (so the runner
has nothing to iterate on) and the exit status is 1.  The distinctness
hypothesis is needed: the dict comprehension of `_checklist_cycle` keeps
only the last `depends_on` of a duplicated id (see the counterexample). -/
theorem c4_acyclicity_gate_amended (task : J) (run_id : String) (env : Env)
    (outcome : CompileChecks.CompileOutcome)
    (hids : (((CompileChecks.normalise_checklist
        (task.getD "checklist_contract" (J.jo [])) run_id).1.items).map
        (fun it => it.item_id)).Nodup)
    (hcyc : ∃ v, Relation.TransGen (CompileChecks.itemsEdge
        (CompileChecks.normalise_checklist
          (task.getD "checklist_contract" (J.jo [])) run_id).1.items) v v)
    (hrun : CompileChecks.compileMain task run_id env = some outcome) :
    "schema_violation/checklist_dependency_cycle"
        ∈ CompileChecks.compileReasonCodes task run_id
    ∧ outcome.emitsContract = false
    ∧ outcome.exitStatus = 1
    ∧ "schema_violation/checklist_dependency_cycle" ∈ outcome.reasonCodes := by
  obtain ⟨v, hv⟩ := hcyc
  have hg : ∃ w, Relation.TransGen (CompileChecks.graphEdge
      (CompileChecks.buildGraph (CompileChecks.normalise_checklist
        (task.getD "checklist_contract" (J.jo [])) run_id).1.items)) w w :=
    ⟨v, hv.mono (fun a b h => CompileChecks.itemsEdge_imp_graphEdge _ hids h)⟩
  have hcc := CompileChecks.checklist_cycle_complete _ hg
  have hmem2 := CompileChecks.cycle_code_mem_normalise
    (task.getD "checklist_contract" (J.jo [])) run_id hcc
  have hraw := CompileChecks.checklist_code_mem_raw task run_id _ hmem2
  have hmem : "schema_violation/checklist_dependency_cycle"
      ∈ CompileChecks.compileReasonCodes task run_id :=
    (mem_sortedSet _ _).2 hraw
  have hne : CompileChecks.compileReasonCodes task run_id ≠ [] := by
    intro h
    rw [h] at hmem
    exact absurd hmem (List.not_mem_nil _)
  have hfail := CompileChecks.compileMain_fail task run_id env outcome hrun hne
  subst hfail
  exact ⟨hmem, rfl, rfl, hmem⟩

/-- A task with distinct item ids `a` and `b` depending on each other. -/
def c4CycTask : J :=
  J.jo [("acceptance_tests", J.ja [mkCheck "c"]),
        ("checklist_contract", J.jo [("items", J.ja
          [mkItem "a" "q" "c" ["b"], mkItem "b" "q" "c" ["a"]])])]

open CompileChecks in
/-- The outcome of compiling the two-cycle task (main completes). -/
def c4Outcome : CompileOutcome :=
  (compileMain c4CycTask "run-c4w" tsEnv).get (by decide)

/-- C4 witness: the amended gate at the concrete two-item cycle. -/
theorem c4_witness :
    "schema_violation/checklist_dependency_cycle"
        ∈ CompileChecks.compileReasonCodes c4CycTask "run-c4w"
    ∧ c4Outcome.emitsContract = false
    ∧ c4Outcome.exitStatus = 1 := by
  have hab : CompileChecks.itemsEdge
      (CompileChecks.normalise_checklist
        (c4CycTask.getD "checklist_contract" (J.jo [])) "run-c4w").1.items
      "a" "b" := by decide
  have hba : CompileChecks.itemsEdge
      (CompileChecks.normalise_checklist
        (c4CycTask.getD "checklist_contract" (J.jo [])) "run-c4w").1.items
      "b" "a" := by decide
  obtain ⟨h₁, h₂, h₃, -⟩ :=
    c4_acyclicity_gate_amended c4CycTask "run-c4w" tsEnv c4Outcome
      (by decide)
      ⟨"a", Relation.TransGen.head hab (Relation.TransGen.single hba)⟩
      (Option.some_get _).symm
  exact ⟨h₁, h₂, h₃⟩

/-- A task whose checklist duplicates the id `a`: the first `a` depends on
`b` and `b` depends on `a` (a genuine cycle in the item-level relation),
but the second `a` has no dependencies and overwrites the first in the
dict comprehension of `_checklist_cycle`. -/
def c4DupTask : J :=
  J.jo [("acceptance_tests", J.ja [mkCheck "c"]),
        ("checklist_contract", J.jo [("items", J.ja
          [mkItem "a" "q" "c" ["b"], mkItem "a" "q" "c" [],
           mkItem "b" "q" "c" ["a"]])])]

/-- C4 counterexample: the duplicated-id task has a `depends_on` cycle
`a → b → a` through targets present in the item set, yet `main` emits a
contract (it does not fail, and `schema_violation/checklist_dependency_cycle`
is never raised), refuting the unqualified claim. -/
theorem c4_counterexample :
    Relation.TransGen (CompileChecks.itemsEdge
        (CompileChecks.normalise_checklist
          (c4DupTask.getD "checklist_contract" (J.jo [])) "run-c4").1.items)
      "a" "a"
    ∧ (CompileChecks.compileMain c4DupTask "run-c4" tsEnv).map
        CompileChecks.CompileOutcome.emitsContract = some true
    ∧ "schema_violation/checklist_dependency_cycle"
        ∉ CompileChecks.compileReasonCodes c4DupTask "run-c4" := by
  have hab : CompileChecks.itemsEdge
      (CompileChecks.normalise_checklist
        (c4DupTask.getD "checklist_contract" (J.jo [])) "run-c4").1.items
      "a" "b" := by decide
  have hba : CompileChecks.itemsEdge
      (CompileChecks.normalise_checklist
        (c4DupTask.getD "checklist_contract" (J.jo [])) "run-c4").1.items
      "b" "a" := by decide
  exact ⟨Relation.TransGen.head hab (Relation.TransGen.single hba),
    by decide, by decide⟩

/-- C6: for any check-pass map and iteration, when `_build_checklist_state`
processes items with pairwise-distinct ids in a dependencies-before-
dependents order, (1) every recomputed status satisfies the claimed rule
read against the resulting statuses — `blocked` if some `depends_on`
target's status is not `satisfied` (absent targets included), else
`satisfied` iff the `pass_when_check` check passed, else `unsatisfied`;
(2) an item one of whose dependencies is not `satisfied` is `blocked` and
never appears in `flipped_to_satisfied` (scenario C); and (3) the statuses
are independent of the processing order: any permutation that is also
dependencies-first yields the same status for every id. -/
theorem c6_checklist_status_rule (items : List J) (cpm : List (String × Bool))
    (iteration : ℕ) (acc : RunUntilGreen.BuildAcc)
    (hrun : RunUntilGreen.build_checklist_state items cpm iteration = some acc)
    (hnd : (items.map RunUntilGreen.itemIdOf).Nodup)
    (hde : RunUntilGreen.DepsOk (items.map RunUntilGreen.itemIdOf) [] items) :
    (∀ item ∈ items, ∀ deps,
        RunUntilGreen.jStrIter (item.getD "depends_on" (J.ja [])) = some deps →
        assocGet? acc.state_map (RunUntilGreen.itemIdOf item)
          = some (RunUntilGreen.ruleStatus cpm acc.state_map deps
              (RunUntilGreen.passWhenOf item)))
    ∧ (∀ item ∈ items, ∀ deps,
        RunUntilGreen.jStrIter (item.getD "depends_on" (J.ja [])) = some deps →
        (∃ dep ∈ deps, assocGet? acc.state_map dep ≠ some "satisfied") →
        assocGet? acc.state_map (RunUntilGreen.itemIdOf item) = some "blocked"
        ∧ RunUntilGreen.itemIdOf item ∉ acc.flips)
    ∧ (∀ (items₂ : List J) (acc₂ : RunUntilGreen.BuildAcc),
        items₂.Perm items →
        RunUntilGreen.build_checklist_state items₂ cpm iteration = some acc₂ →
        RunUntilGreen.DepsOk (items₂.map RunUntilGreen.itemIdOf) [] items₂ →
        ∀ id, assocGet? acc₂.state_map id = assocGet? acc.state_map id) := by
  have hde' : RunUntilGreen.DepsOk
      (({} : RunUntilGreen.BuildAcc).state_map.map (·.1) ++ items.map RunUntilGreen.itemIdOf)
      (({} : RunUntilGreen.BuildAcc).state_map.map (·.1)) items := hde
  obtain ⟨a₁, b₁, c₁, d₁, e₁⟩ :=
    RunUntilGreen.buildFold_spec cpm iteration items {} acc hrun hnd
      (fun item _ => List.not_mem_nil _) hde'
  have hkeys : acc.state_map.map (·.1) = items.map RunUntilGreen.itemIdOf := a₁
  have hrule := c₁
  have hblocked : ∀ item ∈ items, ∀ deps,
      RunUntilGreen.jStrIter (item.getD "depends_on" (J.ja [])) = some deps →
      (∃ dep ∈ deps, assocGet? acc.state_map dep ≠ some "satisfied") →
      assocGet? acc.state_map (RunUntilGreen.itemIdOf item) = some "blocked"
      ∧ RunUntilGreen.itemIdOf item ∉ acc.flips := by
    intro item hmem deps hd hex
    obtain ⟨dep, hdep, hne⟩ := hex
    have hfe : (deps.filter
        (fun dep => assocGet? acc.state_map dep ≠ some "satisfied")).isEmpty = false := by
      have hmemf : dep ∈ deps.filter
          (fun dep => assocGet? acc.state_map dep ≠ some "satisfied") :=
        List.mem_filter.2 ⟨hdep, by simpa using hne⟩
      rcases hfil : deps.filter
          (fun dep => assocGet? acc.state_map dep ≠ some "satisfied") with - | -
      · rw [hfil] at hmemf
        exact absurd hmemf (List.not_mem_nil _)
      · rfl
    have hstat : RunUntilGreen.ruleStatus cpm acc.state_map deps
        (RunUntilGreen.passWhenOf item) = "blocked" := by
      unfold RunUntilGreen.ruleStatus
      rw [if_pos (by rw [hfe]; rfl)]
    have hlook := hrule item hmem deps hd
    rw [hstat] at hlook
    refine ⟨hlook, ?_⟩
    intro hflip
    rcases d₁ _ hflip with h' | h'
    · exact absurd h' (List.not_mem_nil _)
    · rw [hlook] at h'
      exact absurd (Option.some.inj h') (by decide)
  refine ⟨hrule, hblocked, ?_⟩
  intro items₂ acc₂ hperm hrun₂ hde₂
  have hnd₂ : (items₂.map RunUntilGreen.itemIdOf).Nodup :=
    ((hperm.map RunUntilGreen.itemIdOf).nodup_iff).2 hnd
  have hde₂' : RunUntilGreen.DepsOk
      (({} : RunUntilGreen.BuildAcc).state_map.map (·.1) ++ items₂.map RunUntilGreen.itemIdOf)
      (({} : RunUntilGreen.BuildAcc).state_map.map (·.1)) items₂ := hde₂
  obtain ⟨a₂, b₂, c₂, d₂, e₂⟩ :=
    RunUntilGreen.buildFold_spec cpm iteration items₂ {} acc₂ hrun₂ hnd₂
      (fun item _ => List.not_mem_nil _) hde₂'
  have hk₁ : ∀ id, id ∈ acc.state_map.map (·.1) ↔ id ∈ items.map RunUntilGreen.itemIdOf := by
    intro id
    rw [hkeys]
  have hk₂ : ∀ id, id ∈ acc₂.state_map.map (·.1) ↔ id ∈ items.map RunUntilGreen.itemIdOf := by
    intro id
    have ha : acc₂.state_map.map (·.1) = items₂.map RunUntilGreen.itemIdOf := a₂
    rw [ha]
    exact (hperm.map RunUntilGreen.itemIdOf).mem_iff
  have hagree := RunUntilGreen.fixedPoint_agree cpm
    (items.map RunUntilGreen.itemIdOf) acc₂.state_map acc.state_map hk₂ hk₁
    items [] hde (fun d hd => absurd hd (List.not_mem_nil d))
    (fun item hmem => c₂ item (hperm.mem_iff.2 hmem))
    (fun item hmem => hrule item hmem)
    (fun item hmem => e₁ item hmem)
  intro id
  by_cases hid : id ∈ items.map RunUntilGreen.itemIdOf
  · obtain ⟨item, hmem, rfl⟩ := List.mem_map.1 hid
    exact hagree item hmem
  · rw [(assocGet?_eq_none_iff _ _).2 (fun h => hid ((hk₂ id).1 h)),
      (assocGet?_eq_none_iff _ _).2 (fun h => hid ((hk₁ id).1 h))]

/-- Scenario-C items: `a` tied to a failing check, `b` tied to a passing
check but depending on `a`. -/
def c6Items : List J := [mkItem "a" "q" "ca" [], mkItem "b" "q" "cb" ["a"]]

/-- Scenario-C check outcomes: `ca` fails, `b`'s own check `cb` passes. -/
def c6Cpm : List (String × Bool) := [("ca", false), ("cb", true)]

open RunUntilGreen in
/-- The checklist state scenario C produces (the rebuild completes). -/
def c6Acc : BuildAcc := (build_checklist_state c6Items c6Cpm 1).get (by decide)

/-- C6 witness: in scenario C item `b` is `blocked` — not `satisfied`,
although its own check passes — and never flipped, while `a` is
`unsatisfied`. -/
theorem c6_witness :
    assocGet? c6Acc.state_map "b" = some "blocked"
    ∧ "b" ∉ c6Acc.flips
    ∧ assocGet? c6Acc.state_map "a" = some "unsatisfied" := by
  have hde : RunUntilGreen.DepsOk (c6Items.map RunUntilGreen.itemIdOf)
      [] c6Items := by
    refine ⟨?_, ?_, trivial⟩
    · intro deps hd dep hdep _
      have h0 : RunUntilGreen.jStrIter
          ((mkItem "a" "q" "ca" [] : J).getD "depends_on" (J.ja []))
          = some [] := by decide
      obtain rfl : ([] : List String) = deps := Option.some.inj (h0.symm.trans hd)
      exact absurd hdep (List.not_mem_nil dep)
    · intro deps hd dep hdep _
      have h0 : RunUntilGreen.jStrIter
          ((mkItem "b" "q" "cb" ["a"] : J).getD "depends_on" (J.ja []))
          = some ["a"] := by decide
      obtain rfl : (["a"] : List String) = deps := Option.some.inj (h0.symm.trans hd)
      have hda : dep = "a" := by simpa using hdep
      subst hda
      decide
  obtain ⟨h1, h2, h3⟩ := c6_checklist_status_rule c6Items c6Cpm 1 c6Acc
    (Option.some_get _).symm (by decide) hde
  have hb := h2 (mkItem "b" "q" "cb" ["a"])
    (List.mem_cons_of_mem _ (List.mem_cons_self _ _)) ["a"] (by decide)
    ⟨"a", by decide, by decide⟩
  exact ⟨hb.1, hb.2, by decide⟩

/-- C9: compilation of a task document is a pure function of the document
and the run id; the ambient environment (clock) is never consulted, so two
invocations agree exactly (the script imports no clock or randomness, and
the emitted contract value determines the bytes written, `json.dumps` being
deterministic). -/
theorem c9_idempotent_compilation (task : J) (run_id : String) (e₁ e₂ : Env) :
    CompileChecks.compileMain task run_id e₁ = CompileChecks.compileMain task run_id e₂ :=
  rfl

/-- C3 (amended): with one permanently failing check, `max_iterations = 4`
and no checklist, the loop runs 3 iterations — two flat iterations trigger
the diagnostic on iteration 3, which finds no improvement and aborts —
never passes, and terminates with reason codes
`no_progress/no_progress_loop`, `validation_failed/diagnostic_no_improvement`,
`validation_failed/checks_failed` and `validation_failed/fail_closed_abort`
(and without `validation_failed/max_iterations_reached`), exiting 1. -/
theorem c3_budget_scenario_amended :
    c3Run.map RunUntilGreen.RunSummary.all_passed = some false
  ∧ c3Run.map RunUntilGreen.RunSummary.iterations = some 3
  ∧ c3Run.map RunUntilGreen.RunSummary.aborted = some true
  ∧ c3Run.map RunUntilGreen.RunSummary.reason_codes =
      some ["no_progress/no_progress_loop",
            "validation_failed/diagnostic_no_improvement",
            "validation_failed/checks_failed",
            "validation_failed/fail_closed_abort"]
  ∧ c3Run.map RunUntilGreen.RunSummary.exit_status = some 1 := by
  refine ⟨by decide, by decide, by decide, by decide, by decide⟩

/-- Scenario-D contract: a strict checklist item tied to a permanently
failing check, with ten iterations of budget. -/
def scenarioDContract : J :=
  J.jo [("checks", J.ja [mkCheck "c"]),
        ("max_iterations", J.ji 10),
        ("checklist_contract", J.jo [("items", J.ja
          [mkItem "s" "q" "c" [] (some "strict")])])]

open RunUntilGreen in
def c2Run : RunSummary :=
  (runMain scenarioDContract "run-c2" tsEnv alwaysFailOracle).get (by decide)

open RunUntilGreen in
/-- C2 witness: scenario D aborts on iteration 1 despite
`max_iterations = 10`. -/
theorem c2_witness :
    c2Run.iterations = 1
    ∧ c2Run.strict_early_terminated = true
    ∧ c2Run.aborted = true
    ∧ "validation_failed/checklist_strict_failed" ∈ c2Run.reason_codes := by
  have hrun : runMain scenarioDContract "run-c2" tsEnv alwaysFailOracle = some c2Run :=
    (Option.some_get _).symm
  obtain ⟨rec, hmem, hne⟩ : ∃ rec ∈ c2Run.trace, rec.strict_fails ≠ [] := by decide
  obtain ⟨hiter, -, hterm, habort, hcode⟩ :=
    c2_strict_precedence scenarioDContract "run-c2" tsEnv alwaysFailOracle c2Run rec
      hrun hmem hne
  have hone : ∀ r ∈ c2Run.trace, r.iteration = 1 := by decide
  exact ⟨hiter.trans (hone rec hmem), hterm, habort, hcode⟩

/-- A strict item blocked behind a never-satisfied dependency, with
permanently failing checks. -/
def c10Contract : J :=
  J.jo [("checks", J.ja [mkCheck "ca", mkCheck "cb"]),
        ("max_iterations", J.ji 5),
        ("checklist_contract", J.jo [("items", J.ja
          [mkItem "a" "q" "ca",
           mkItem "s" "q" "cb" ["a"] (some "strict")])])]

open RunUntilGreen in
def c10Run : RunSummary :=
  (runMain c10Contract "run-c10" tsEnv alwaysFailOracle).get (by decide)

open RunUntilGreen in
/-- C10 witness: the strict-blocked run never strict-terminates; it ends
in a diagnostic abort, and the blocked strict item is reported in every
iteration's `strict_blocked_item_ids`. -/
theorem c10_witness :
    c10Run.strict_early_terminated = false
    ∧ c10Run.aborted = true
    ∧ "validation_failed/diagnostic_no_improvement" ∈ c10Run.reason_codes
    ∧ c10Run.checklist_deltas.all
        (fun d => d.strict_blocked_item_ids = ["s"] && d.strict_fail_item_ids = []) = true
    ∧ c10Run.iterations = 3 := by
  have hrun : runMain c10Contract "run-c10" tsEnv alwaysFailOracle = some c10Run :=
    (Option.some_get _).symm
  obtain ⟨hterm, -, habort, -⟩ :=
    c10_strict_blocked_never_aborts c10Contract "run-c10" tsEnv alwaysFailOracle c10Run
      hrun (by decide)
  have hab : c10Run.aborted = true := by decide
  exact ⟨hterm, hab, habort hab, by decide, by decide⟩

open RunUntilGreen in
def c5Run : RunSummary :=
  (runMain c3Contract "run-c5" tsEnv alwaysFailOracle).get (by decide)

open RunUntilGreen in
/-- C5 witness: the amended trigger conditions applied to a run whose
diagnostic fires on iteration 3 and finds no improvement. -/
theorem c5_witness :
    c5Run.aborted = true
    ∧ "validation_failed/diagnostic_no_improvement" ∈ c5Run.reason_codes
    ∧ c5Run.diagnostic_ran = true := by
  have h := c5_stagnation_trigger_amended c3Contract "run-c5" tsEnv alwaysFailOracle
    c5Run (Option.some_get _).symm
  obtain ⟨rec, hmem, hbk⟩ :
      ∃ rec ∈ c5Run.trace, rec.break_kind = some BreakKind.diag := by decide
  obtain ⟨hab, hcode, -⟩ := h.2.2.1 rec hmem hbk
  exact ⟨hab, hcode, by decide⟩

/-- C5 counterexample contract: checks `ca`, `cs`, `cx`; a normal item
`a` tied to `ca` and a strict item `s` depending on `a` and tied to `cs`. -/
def c5cContract : J :=
  J.jo [("checks", J.ja [mkCheck "ca", mkCheck "cs", mkCheck "cx"]),
        ("max_iterations", J.ji 5),
        ("checklist_contract", J.jo [("items", J.ja
          [mkItem "a" "q" "ca",
           mkItem "s" "q" "cs" ["a"] (some "strict")])])]

open RunUntilGreen in
/-- C5 counterexample oracle: `ca` fails on iterations 1–2 then passes,
`cs` always fails, `cx` passes on iterations 1–2 then fails — so overall
progress stays flat while item `a` flips to satisfied on iteration 3. -/
def c5cOracle : Oracle :=
  ⟨fun i _ idx =>
    if idx = 0 then (if 3 ≤ i then (0, "") else (1, ""))
    else if idx = 1 then (1, "")
    else (if i ≤ 2 then (0, "") else (1, ""))⟩

open RunUntilGreen in
def c5cRun : RunSummary :=
  (runMain c5cContract "run-c5c" tsEnv c5cOracle).get (by decide)

open RunUntilGreen in
/-- C5 counterexample: on iteration 3 of this run `consecutive_no_progress`
reaches exactly 2, yet the diagnostic branch does not execute — the strict
break preempts it — refuting the claimed "fires iff the counter reaches
exactly 2". -/
theorem c5_counterexample :
    (c5cRun.trace[2]?).map
        (fun r => (r.counter_after, r.diagnostic_fired, r.break_kind))
      = some (2, false, some BreakKind.strict)
    ∧ c5cRun.diagnostic_ran = false := by
  refine ⟨by decide, by decide⟩

end ConcreteEvaluation

end ValidationGate
